import Mathlib

/-!
# Verification of the pcmdbedit CDB codec

Shallow embedding of `cdb_converter.js` (the CDB binary <-> relational codec of
the pcmdbedit repository) and proofs about it.

Modelling conventions, used throughout:

* A byte stream is a `List Nat` whose entries are the byte values (the JS code
  works on `ArrayBuffer`/`Uint8Array`/`DataView`; all multi-byte reads and
  writes are little-endian, as in the source).
* JS strings that travel through the codec (chunk descriptions, cell texts)
  are modelled as their UTF-8 byte lists.  `TextEncoder`/`TextDecoder` are
  therefore the identity on these lists, which is faithful for every string
  the codec can produce.
* Fallible reader operations return `Except String (result x new-position)`;
  a thrown JS exception is an `.error`.
* Unbounded JS recursion/loops are given explicit fuel; `decodeDB` passes
  ample fuel, and fuel-monotonicity lemmas make the choice irrelevant.
-/

namespace PCMCDB

/-! ## Bytes and 32-bit little-endian words -/

/-- `2^32`, the modulus of all 32-bit writes (`DataView.setUint32`). -/
def two32 : Nat := 4294967296

/-- The four little-endian bytes that `setUint32(pos, v, true)` stores.
JS first coerces `v` with `ToUint32`, hence the implicit `mod 2^32` that the
byte extractions perform. -/
def w32 (v : Nat) : List Nat :=
  [v % 256, v / 256 % 256, v / 65536 % 256, v / 16777216 % 256]

/-- Recompose four little-endian bytes into the value `getUint32` returns. -/
def rd32 (a b c d : Nat) : Nat := a + 256 * b + 65536 * c + 16777216 * d

/-- Padding to the next 4-byte boundary: `(4 - (pos & 3)) & 3` in the source. -/
def pad4 (p : Nat) : Nat := (4 - p % 4) % 4

/-! ## Magic values and chunk types (`MAGIC`, `CHUNK_TYPE`, `DATA_TYPE`) -/

def CHUNK_BEGIN : Nat := 0xAAAAAAAA
def CHUNK_SEPARATOR : Nat := 0xBBBBBBBB
def CHUNK_END : Nat := 0xCCCCCCCC
def ARRAY_BEGIN : Nat := 0xDDDDDDDD
def ARRAY_END : Nat := 0xEEEEEEEE

def WRAPPER : Nat := 0x00
def DATABASE_TABLES : Nat := 0x01
def DATABASE_FLAGS : Nat := 0x02
def TABLE : Nat := 0x10
def ROW_COUNT : Nat := 0x11
def COLUMN_DEFINITIONS : Nat := 0x12
def TABLE_ID : Nat := 0x15
def TABLE_FLAGS : Nat := 0x16
def COLUMN : Nat := 0x20
def COLUMN_DATA_TYPE : Nat := 0x21
def COLUMN_VALUES : Nat := 0x22
def COLUMN_BLOB_DATA : Nat := 0x23
def COLUMN_INDEX : Nat := 0x24

/-- `DATA_TYPE` of the source: note the implementation enumerates only these
five types (`INTEGER`, `FLOAT`, `STRING`, `FLOAT_LIST`, `INTEGER_LIST`). -/
def DT_INTEGER : Nat := 0
def DT_FLOAT : Nat := 1
def DT_STRING : Nat := 2
def DT_FLOAT_LIST : Nat := 10
def DT_INTEGER_LIST : Nat := 11

/-! ## Reader primitives (`CDBReader`) -/

/-- Byte of the stream at index `i` (in-bounds accesses only are ever used). -/
def byteAt (d : List Nat) (i : Nat) : Nat := (d.get? i).getD 0

/-- `CDBReader.read32`: little-endian `getUint32` at `pos`, throwing
"Read past end of file" when fewer than 4 bytes remain. -/
def read32 (d : List Nat) (p : Nat) : Except String (Nat × Nat) :=
  if p + 4 ≤ d.length then
    .ok (rd32 (byteAt d p) (byteAt d (p + 1)) (byteAt d (p + 2)) (byteAt d (p + 3)), p + 4)
  else .error "Read past end of file"

/-- `CDBReader.readBytes`. -/
def readBytes (d : List Nat) (p len : Nat) : Except String (List Nat × Nat) :=
  if p + len ≤ d.length then .ok ((d.drop p).take len, p + len)
  else .error "Read past end of file"

/-- `CDBReader.readPadding`: advances `pos` to the next 4-byte boundary. -/
def readPadding (p : Nat) : Nat := p + pad4 p

/-- Header record returned by `CDBReader.readChunkHeader`. -/
structure Header where
  chunkSize : Nat
  chunkType : Nat
  flags : Nat
  description : Option (List Nat)
deriving Repr, DecidableEq

/-- `CDBReader.readChunkHeader`.  All three sentinel positions (begin magic,
separator magic — and later the end magic in `readChunk`) are read with plain
`read32` calls whose results are discarded: the source never compares them
with anything. -/
def readChunkHeader (d : List Nat) (p : Nat) : Except String (Header × Nat) := do
  let (_, p) ← read32 d p
  let (chunkSize, p) ← read32 d p
  let (chunkType, p) ← read32 d p
  let (flags, p) ← read32 d p
  let (hasDescription, p) ← read32 d p
  let (description, p) ←
    if hasDescription ≠ 0 then do
      let (descLength, p) ← read32 d p
      let (descBytes, p) ← readBytes d p (descLength - 1)
      pure (some descBytes, p + 1)
    else pure ((none : Option (List Nat)), p)
  let p := readPadding p
  let (_, p) ← read32 d p
  pure (⟨chunkSize, chunkType, flags, description⟩, p)

/-! ## IEEE-754 single precision (`getFloat32` / `setFloat32`)

A JS number obtained from `getFloat32` carries exactly a sign, a biased
exponent and a fraction — except that all NaN bit patterns collapse to the
single JS `NaN`, which `setFloat32` stores back as the canonical quiet NaN
`0x7FC00000`.  `F32` is that information content. -/

inductive F32 where
  /-- `ex < 255`; subnormals have `ex = 0`.  Value `(-1)^sign * m * 2^(e'-150)`
  with `m = frac` (`e' = 1`) when `ex = 0` and `m = 2^23 + frac` (`e' = ex`)
  otherwise. -/
  | finite (sign : Bool) (ex : Nat) (frac : Nat)
  | inf (sign : Bool)
  | nan
deriving Repr, DecidableEq

/-- Decode 32 bits as `getFloat32` does (field extraction). -/
def getF32 (w : Nat) : F32 :=
  let s := w / 2147483648 % 2 = 1
  let e := w / 8388608 % 256
  let f := w % 8388608
  if e = 255 then (if f = 0 then .inf s else .nan) else .finite s e f

/-- Re-encode as `setFloat32` does; JS writes NaN as `0x7FC00000`. -/
def putF32 : F32 → Nat
  | .finite s e f => (if s then 2147483648 else 0) + e * 8388608 + f
  | .inf s => (if s then 2147483648 else 0) + 2139095040
  | .nan => 2143289344

/-- `value | 0` on a `getUint32` result: reinterpret as signed 32-bit. -/
def cellInt32 (w : Nat) : Int :=
  if w < 2147483648 then (w : Int) else (w : Int) - 4294967296

/-- `setUint32` of a JS number holding a 32-bit signed integer (`ToUint32`). -/
def toU32 (i : Int) : Nat := (i % 4294967296).toNat

/-! ## Decimal rendering of numbers (`Number.prototype.toFixed`, `String`) -/

/-- Decimal digits (ASCII), most significant first; fuel keeps the definition
kernel-reducible. -/
def natDigitsF : Nat → Nat → List Nat
  | 0, _ => []
  | fuel + 1, n => if n < 10 then [48 + n] else natDigitsF fuel (n / 10) ++ [48 + n % 10]

def natDigits (n : Nat) : List Nat := natDigitsF (n + 1) n

/-- JS `String(i)` for an integer-valued number: exact decimal with `-`. -/
def intToText (i : Int) : List Nat :=
  if i < 0 then 45 :: natDigits (-i).toNat else natDigits i.toNat

/-- Left-pad a digit string with `'0'` to exactly six characters. -/
def pad6 (ds : List Nat) : List Nat := List.replicate (6 - ds.length) 48 ++ ds

/-- Mantissa of a finite float32 (`frac` alone for subnormals). -/
def f32Mant (e f : Nat) : Nat := if e = 0 then f else 8388608 + f

/-- Effective exponent field (subnormals behave like `ex = 1`). -/
def f32Exp (e : Nat) : Nat := max e 1

/-- `|v| * 10^6` rounded half-up: the integer `n` of the ECMA-262 `toFixed`
algorithm (ties pick the larger `n`). -/
def microOf (e f : Nat) : Nat :=
  let m := f32Mant e f
  let e' := f32Exp e
  if 150 ≤ e' then m * 2 ^ (e' - 150) * 1000000
  else (2 * (m * 1000000) + 2 ^ (150 - e')) / 2 ^ (151 - e')

/-- `value.toFixed(6)` on the JS number of an `F32`, as ASCII bytes.
`toFixed` falls back to exponential `ToString` for magnitudes `≥ 10^21`;
floats that large (here conservatively `ex ≥ 196`) are rendered as a `"?"`
marker instead of modelling that fallback — such values can never satisfy the
reformat-fixpoint conditions used by the theorems below, so the marker only
shrinks the domain we reason about.  The sign is printed iff the JS number is
`< 0`, so `-0` prints unsigned. -/
def toFixed6 : F32 → List Nat
  | .nan => [78, 97, 78]
  | .inf s => (if s then [45] else []) ++ [73, 110, 102, 105, 110, 105, 116, 121]
  | .finite s e f =>
    if 196 ≤ e then [63]
    else
      let n := microOf e f
      let sgn : List Nat := if s ∧ f32Mant e f ≠ 0 then [45] else []
      sgn ++ natDigits (n / 1000000) ++ [46] ++ pad6 (natDigits (n % 1000000))

def isDigitByte (c : Nat) : Bool := 48 ≤ c ∧ c ≤ 57

/-- The regex `/(\.\d*?)0+$/ → '$1'` of `convertColumnData`: remove the
trailing run of zeros when the string ends in `.` followed only by digits
(the matched dot is necessarily the last dot of the string). -/
def stripTrailZeros (s : List Nat) : List Nat :=
  let r := s.reverse
  let zs := r.takeWhile (· = 48)
  let rest := r.dropWhile (· = 48)
  if zs.isEmpty then s
  else
    let ds := rest.takeWhile isDigitByte
    match rest.drop ds.length with
    | 46 :: _ => rest.reverse
    | _ => s

/-- The regex `/\.$/ → ''`: drop a trailing lone decimal point. -/
def stripTrailDot (s : List Nat) : List Nat :=
  if s.getLast? = some 46 then s.dropLast else s

/-- Formatting of one float-list element (`FLOAT_LIST` branch of
`convertColumnData`): `toFixed(6)`, strip trailing fractional zeros, strip a
trailing lone dot, and append `".0"` when no dot remains and the surrounding
list has more than one element. -/
def fmtFloatElem (w : Nat) (count : Nat) : List Nat :=
  let s := stripTrailDot (stripTrailZeros (toFixed6 (getF32 w)))
  if ¬ s.contains 46 ∧ 1 < count then s ++ [46, 48] else s

/-- `values.join(',')` surrounded by parentheses, as in `parseNumericLists`. -/
def parenJoin (vs : List (List Nat)) : List Nat :=
  40 :: (List.intercalate [44] vs) ++ [41]

/-! ## Decoded chunk values -/

/-- A decoded cell value as it is handed to SQLite: a signed-integer number,
a float number, or a string (modelled by its bytes). -/
inductive Cell where
  | int (i : Int)
  | float (f : F32)
  | text (s : List Nat)
deriving Repr, DecidableEq

mutual
/-- The heterogeneous `result.value` / `result` objects `readChunk` returns. -/
inductive CVal where
  | num (n : Nat)
  | words (ws : List Nat)
  | blob (bs : List Nat)
  | tables (ts : List TableRec)
  | cols (cs : List ColRec)
  | container (hdr : Header) (children : List (Nat × CVal))

/-- The record built by the `DATABASE_TABLES` item reader. -/
inductive TableRec where
  | mk (name : Option (List Nat)) (rowCount columns tableId tableFlags : Option CVal)

/-- The record built by the `COLUMN_DEFINITIONS` item reader. -/
inductive ColRec where
  | mk (name : Option (List Nat)) (dtype : Option CVal) (data : List Cell)
       (columnIndex : Option CVal)
end

def TableRec.name : TableRec → Option (List Nat) | .mk n _ _ _ _ => n
def TableRec.rowCount : TableRec → Option CVal | .mk _ r _ _ _ => r
def TableRec.columns : TableRec → Option CVal | .mk _ _ c _ _ => c
def TableRec.tableId : TableRec → Option CVal | .mk _ _ _ t _ => t
def TableRec.tableFlags : TableRec → Option CVal | .mk _ _ _ _ f => f

def ColRec.name : ColRec → Option (List Nat) | .mk n _ _ _ => n
def ColRec.dtype : ColRec → Option CVal | .mk _ t _ _ => t
def ColRec.data : ColRec → List Cell | .mk _ _ d _ => d
def ColRec.columnIndex : ColRec → Option CVal | .mk _ _ _ i => i

/-- `children[chunk.type] = chunk.value`: later assignments shadow earlier
ones, which `List.lookup` on a prepended list reproduces. -/
def childSet (l : List (Nat × CVal)) (k : Nat) (v : CVal) : List (Nat × CVal) :=
  (k, v) :: l

def childGet (l : List (Nat × CVal)) (k : Nat) : Option CVal := l.lookup k

/-- The `readChunk` result: `type` plus the kind-specific payload (container
results also carry the header, inside `CVal.container`). -/
structure Chunk where
  type : Nat
  val : CVal

/-- `chunk.children` — a JS `TypeError` if the result is not a container. -/
def chunkChildren (c : Chunk) : Except String (List (Nat × CVal)) :=
  match c.val with
  | .container _ ch => .ok ch
  | _ => .error "model: children of a non-container chunk (JS TypeError)"

/-- `chunk.header.description` — only containers carry a header. -/
def chunkDescr (c : Chunk) : Except String (Option (List Nat)) :=
  match c.val with
  | .container h _ => .ok h.description
  | _ => .error "model: header of a non-container chunk (JS TypeError)"

/-! ## Column materialisation (`convertColumnData` and helpers) -/

/-- `CDBReader.parseStrings`, offsets running from 4 (past the blob's size
prefix): each cell is `length - 1` bytes (the stored length includes the
terminating NUL), `TextDecoder` modelled as the identity on bytes. -/
def parseStringsFrom (sizedData : List Nat) : List Nat → Nat → List Cell
  | [], _ => []
  | len :: rest, off =>
    .text ((sizedData.drop off).take (len - 1)) :: parseStringsFrom sizedData rest (off + len)

def parseStrings (sizedData : List Nat) (lengths : List Nat) : List Cell :=
  parseStringsFrom sizedData lengths 4

/-- `getUint32` on the blob `DataView` (callers check bounds). -/
def blobW32 (bs : List Nat) (off : Nat) : Nat :=
  rd32 (byteAt bs off) (byteAt bs (off + 1)) (byteAt bs (off + 2)) (byteAt bs (off + 3))

/-- Read `count` consecutive 32-bit words from the blob, throwing like
`DataView.getUint32` does when a read crosses the end. -/
def readWords (bs : List Nat) : Nat → Nat → Except String (List Nat × Nat)
  | 0, off => .ok ([], off)
  | c + 1, off =>
    if off + 4 ≤ bs.length then do
      let (ws, off') ← readWords bs c (off + 4)
      .ok (blobW32 bs off :: ws, off')
    else .error "Offset is outside the bounds of the DataView"

/-- `parseNumericLists` instantiated with the `INTEGER_LIST` value reader
(`getUint32 | 0`, then JS number-to-string in `join`). -/
def parseIntLists (sized : List Nat) : List Nat → Nat → Except String (List Cell × Nat)
  | [], off => .ok ([], off)
  | c :: cs, off => do
    let (ws, off) ← readWords sized c off
    let (rest, off) ← parseIntLists sized cs off
    .ok (.text (parenJoin (ws.map (fun w => intToText (cellInt32 w)))) :: rest, off)

/-- `parseNumericLists` instantiated with the `FLOAT_LIST` value reader
(`getFloat32` then the `toFixed(6)`-based formatting). -/
def parseFloatLists (sized : List Nat) : List Nat → Nat → Except String (List Cell × Nat)
  | [], off => .ok ([], off)
  | c :: cs, off => do
    let (ws, off) ← readWords sized c off
    let (rest, off) ← parseFloatLists sized cs off
    .ok (.text (parenJoin (ws.map (fun w => fmtFloatElem w c))) :: rest, off)

/-- The body of `CDBReader.convertColumnData` once the column chunk's
children are in hand: dispatch on the `COLUMN_DATA_TYPE` value. -/
def convertColumnBody (dt : Nat) (rawData : Option CVal) (sizedData : List Nat) :
    Except String (List Cell) :=
  if dt = DT_INTEGER then
    match rawData with
    | some (.words ws) => .ok (ws.map (fun w => .int (cellInt32 w)))
    | _ => .error "model: COLUMN_VALUES missing (JS TypeError)"
  else if dt = DT_FLOAT then
    match rawData with
    | some (.words ws) => .ok (ws.map (fun w => .float (getF32 w)))
    | _ => .error "model: COLUMN_VALUES missing (JS TypeError)"
  else if dt = DT_STRING then
    match rawData with
    | some (.words ws) => .ok (parseStrings sizedData ws)
    | _ => .error "model: COLUMN_VALUES missing (JS TypeError)"
  else if dt = DT_INTEGER_LIST then
    match rawData with
    | some (.words ws) => do
      let (cells, _) ← parseIntLists sizedData ws 4
      .ok cells
    | _ => .error "model: COLUMN_VALUES missing (JS TypeError)"
  else if dt = DT_FLOAT_LIST then
    match rawData with
    | some (.words ws) => do
      let (cells, _) ← parseFloatLists sizedData ws 4
      .ok cells
    | _ => .error "model: COLUMN_VALUES missing (JS TypeError)"
  else .error ("Unknown data type: " ++ toString dt)

/-- `CDBReader.convertColumnData`.  A missing `COLUMN_BLOB_DATA` child
defaults to the four-byte zero blob (`?? new Uint8Array([0,0,0,0])`); a
missing or non-numeric `COLUMN_DATA_TYPE` falls into the switch's default,
i.e. the `Unknown data type` throw. -/
def convertColumnData (c : Chunk) : Except String (List Cell) := do
  let ch ← chunkChildren c
  let sizedData := match childGet ch COLUMN_BLOB_DATA with
    | some (.blob bs) => bs
    | _ => [0, 0, 0, 0]
  match childGet ch COLUMN_DATA_TYPE with
  | some (.num dt) => convertColumnBody dt (childGet ch COLUMN_VALUES) sizedData
  | _ => .error "Unknown data type: undefined"

/-! ## The recursive chunk reader (`readChunk` / `readArray`) -/

/-- Read `count` 32-bit values with `read32` (the `COLUMN_VALUES` loop). -/
def readValuesWords (d : List Nat) : Nat → Nat → Except String (List Nat × Nat)
  | p, 0 => .ok ([], p)
  | p, c + 1 => do
    let (v, p) ← read32 d p
    let (vs, p) ← readValuesWords d p c
    .ok (v :: vs, p)

mutual

/-- `CDBReader.readChunk`.  The final `readPadding` + `read32` consume the
body padding and the (unchecked) end-magic word.  The `COLUMN_VALUES` loop
`for (i = 0; i < dataBytes / 4; i++)` performs `⌈dataBytes/4⌉` reads when
`dataBytes` is not a multiple of four; `dataBytes` itself is the JS value
`chunkEndPos - pos - 4` truncated at zero when negative, in which case the
loop body never runs, matching the Nat subtraction used here. -/
def readChunk : Nat → List Nat → Nat → Except String (Chunk × Nat)
  | 0, _, _ => .error "model: out of fuel"
  | fuel + 1, d, p => do
    let chunkStartPos := p
    let (header, p) ← readChunkHeader d p
    let chunkEndPos := chunkStartPos + header.chunkSize
    let (result, p) ←
      if header.chunkType = ROW_COUNT ∨ header.chunkType = TABLE_ID ∨
         header.chunkType = TABLE_FLAGS ∨ header.chunkType = DATABASE_FLAGS ∨
         header.chunkType = COLUMN_INDEX ∨ header.chunkType = COLUMN_DATA_TYPE then do
        let (v, p) ← read32 d p
        pure ((⟨header.chunkType, .num v⟩ : Chunk), p)
      else if header.chunkType = COLUMN_VALUES then do
        let dataBytes := chunkEndPos - p - 4
        let (vs, p) ← readValuesWords d p ((dataBytes + 3) / 4)
        pure (⟨header.chunkType, .words vs⟩, p)
      else if header.chunkType = COLUMN_BLOB_DATA then do
        let sizedDataBytes := chunkEndPos - p - 4
        let (bs, p) ← readBytes d p sizedDataBytes
        pure (⟨header.chunkType, .blob bs⟩, p)
      else if header.chunkType = DATABASE_TABLES then do
        let (_, p) ← read32 d p
        let (count, p) ← read32 d p
        let (ts, p) ← readTableItems fuel d p count
        let (_, p) ← read32 d p
        pure (⟨header.chunkType, .tables ts⟩, p)
      else if header.chunkType = COLUMN_DEFINITIONS then do
        let (_, p) ← read32 d p
        let (count, p) ← read32 d p
        let (cs, p) ← readColItems fuel d p count
        let (_, p) ← read32 d p
        pure (⟨header.chunkType, .cols cs⟩, p)
      else if header.chunkType = WRAPPER ∨ header.chunkType = TABLE ∨
              header.chunkType = COLUMN then do
        let (children, p) ← readChildren fuel d p chunkEndPos []
        pure (⟨header.chunkType, .container header children⟩, p)
      else
        .error ("Unknown chunk type: 0x" ++ toString header.chunkType)
    let p := readPadding p
    let (_, p) ← read32 d p
    pure (result, p)
  termination_by structural fuel _ _ => fuel

/-- The container child loop: `while (pos < chunkEndPos) { if (chunkEndPos -
pos < 20) break; ... }` — a child is read exactly when at least 20 bytes
remain before the declared end. -/
def readChildren : Nat → List Nat → Nat → Nat → List (Nat × CVal) →
    Except String (List (Nat × CVal) × Nat)
  | 0, _, _, _, _ => .error "model: out of fuel"
  | fuel + 1, d, p, endPos, acc =>
    if p + 20 ≤ endPos then do
      let (c, p') ← readChunk fuel d p
      readChildren fuel d p' endPos (childSet acc c.type c.val)
    else .ok (acc, p)
  termination_by structural fuel _ _ _ _ => fuel

/-- `readArray` with the `DATABASE_TABLES` item reader. -/
def readTableItems : Nat → List Nat → Nat → Nat → Except String (List TableRec × Nat)
  | _, _, p, 0 => .ok ([], p)
  | 0, _, _, _ + 1 => .error "model: out of fuel"
  | fuel + 1, d, p, count + 1 => do
    let (c, p) ← readChunk fuel d p
    let ch ← chunkChildren c
    let desc ← chunkDescr c
    let t : TableRec := .mk desc (childGet ch ROW_COUNT) (childGet ch COLUMN_DEFINITIONS)
      (childGet ch TABLE_ID) (childGet ch TABLE_FLAGS)
    let (ts, p) ← readTableItems fuel d p count
    .ok (t :: ts, p)
  termination_by structural fuel _ _ _ => fuel

/-- `readArray` with the `COLUMN_DEFINITIONS` item reader (this is where
`convertColumnData` runs). -/
def readColItems : Nat → List Nat → Nat → Nat → Except String (List ColRec × Nat)
  | _, _, p, 0 => .ok ([], p)
  | 0, _, _, _ + 1 => .error "model: out of fuel"
  | fuel + 1, d, p, count + 1 => do
    let (c, p) ← readChunk fuel d p
    let ch ← chunkChildren c
    let desc ← chunkDescr c
    let data ← convertColumnData c
    let cr : ColRec := .mk desc (childGet ch COLUMN_DATA_TYPE) data (childGet ch COLUMN_INDEX)
    let (cs, p) ← readColItems fuel d p count
    .ok (cr :: cs, p)
  termination_by structural fuel _ _ _ => fuel

end

/-! ## The metadata codec

Packing, from `cdbToSQLite`:
`encodedValue = (table.tableId * 256 + col.columnIndex) * 16 + (col.type & 0xF)`.
Unpacking, from `sqliteToCDB` (`dataType`, `columnIndex`) and from the
decoding formula in `CDB_FORMAT.md` (`table_id`). -/

def packMeta (tableId columnIndex dataType : Nat) : Nat :=
  (tableId * 256 + columnIndex) * 16 + dataType % 16

/-- `encodedValue & 0xF`. -/
def unpackDataType (n : Nat) : Nat := n % 16

/-- `Math.floor(encodedValue / 16) & 0xFF` (the bitmask reduces the JS value
modulo `2^32` first, which changes nothing modulo 256). -/
def unpackColumnIndex (n : Nat) : Nat := n / 16 % 256

/-- `Math.floor(encoded_value / (256 * 16))`, i.e. `N >> 12`. -/
def unpackTableId (n : Nat) : Nat := n / 4096

/-! ## The chunk writer (`CDBWriter`)

The writer is modelled as a state machine over an append-only byte list:
`pos` is always `buf.length` (the JS buffer pre-grows and is zero-filled, so
`writePadding`, which only advances `pos`, appends zero bytes). -/

/-- One call into the writer, as issued by `sqliteToCDB` and its helpers. -/
inductive WCmd where
  | w32 (v : Nat)
  | bytes (bs : List Nat)
  | copen (ty : Nat) (desc : Option (List Nat))
  | cclose
deriving Repr

structure WState where
  buf : List Nat
  /-- `chunkStack`: `(type, startPos)` of open chunks, innermost first. -/
  stack : List (Nat × Nat)
  /-- `closedChunks`: `(type, startPos, size)` in close order. -/
  closed : List (Nat × Nat × Nat)
deriving Repr

def WState.initial : WState := ⟨[], [], []⟩

/-- JS truthiness of the `description` argument: `null` and `''` are falsy. -/
def descTruthy : Option (List Nat) → Bool
  | some bs => !bs.isEmpty
  | none => false

def wWrite32 (st : WState) (v : Nat) : WState := { st with buf := st.buf ++ w32 v }

def wWriteBytes (st : WState) (bs : List Nat) : WState := { st with buf := st.buf ++ bs }

/-- `writePadding`: advance to 4-byte alignment (zero bytes appear because the
JS backing buffer is zero-initialised). -/
def wWritePadding (st : WState) : WState :=
  { st with buf := st.buf ++ List.replicate (pad4 st.buf.length) 0 }

/-- `CDBWriter.writeChunkOpen`. -/
def writeChunkOpen (st : WState) (ty : Nat) (desc : Option (List Nat)) : WState :=
  let start := st.buf.length
  let st := wWrite32 st CHUNK_BEGIN
  let st := wWrite32 st 0
  let st := wWrite32 st ty
  let st := wWrite32 st 0
  let st := wWrite32 st (if descTruthy desc then 1 else 0)
  let st :=
    if descTruthy desc then
      let bs := desc.getD []
      let st := wWrite32 st (bs.length + 1)
      let st := wWriteBytes st bs
      wWriteBytes st [0]
    else st
  let st := wWritePadding st
  let st := wWrite32 st CHUNK_SEPARATOR
  { st with stack := (ty, start) :: st.stack }

/-- `CDBWriter.writeChunkClose` (the pop of an empty stack cannot happen in
the balanced programs generated below; it is modelled as a no-op). -/
def writeChunkClose (st : WState) : WState :=
  match st.stack with
  | [] => st
  | (ty, start) :: rest =>
    let st := wWritePadding { st with stack := rest }
    let st := wWrite32 st CHUNK_END
    { st with closed := st.closed ++ [(ty, start, st.buf.length - start)] }

def wStep (st : WState) : WCmd → WState
  | .w32 v => wWrite32 st v
  | .bytes bs => wWriteBytes st bs
  | .copen ty desc => writeChunkOpen st ty desc
  | .cclose => writeChunkClose st

def wRun (cmds : List WCmd) (st : WState) : WState := cmds.foldl wStep st

/-- Overlay `bs` into `buf` starting at index `i` (`setUint32` back-patch). -/
def setBytes (buf : List Nat) (i : Nat) (bs : List Nat) : List Nat :=
  buf.take i ++ bs ++ buf.drop (i + bs.length)

/-- `CDBWriter.getData`: walk `closedChunks` and write each recorded size
into the word after that chunk's begin-magic. -/
def getData (st : WState) : List Nat :=
  st.closed.foldl (fun buf c => setBytes buf (c.2.1 + 4) (w32 c.2.2)) st.buf

/-! ## Balanced writer programs and their functional layout

`sqliteToCDB` always drives the writer in a balanced open/…/close pattern;
`Prog` trees capture exactly those call sequences, and `Prog.enc` computes
the bytes the writer produces for them (with the back-patched sizes already
in place). -/

inductive Prog where
  | w32 (v : Nat)
  | bytes (bs : List Nat)
  | chunk (ty : Nat) (desc : Option (List Nat)) (body : List Prog)

mutual
def Prog.cmds : Prog → List WCmd
  | .w32 v => [.w32 v]
  | .bytes bs => [.bytes bs]
  | .chunk ty desc body => .copen ty desc :: Prog.cmdsList body ++ [.cclose]

def Prog.cmdsList : List Prog → List WCmd
  | [] => []
  | p :: ps => Prog.cmds p ++ Prog.cmdsList ps
end

/-- Bytes of a chunk header carrying `size` in its size field (layout of
`writeChunkOpen`, which writes 0 there until `getData` patches it). -/
def hdrBytes (ty : Nat) (desc : Option (List Nat)) (size : Nat) : List Nat :=
  w32 CHUNK_BEGIN ++ w32 size ++ w32 ty ++ w32 0 ++
    (if descTruthy desc then
      let bs := desc.getD []
      w32 1 ++ w32 (bs.length + 1) ++ bs ++ [0] ++ List.replicate (pad4 (bs.length + 1)) 0
    else w32 0) ++
    w32 CHUNK_SEPARATOR

def hdrLen (desc : Option (List Nat)) : Nat :=
  24 + (if descTruthy desc then
    let n := (desc.getD []).length + 1
    4 + n + pad4 n
  else 0)

mutual
/-- Final bytes of a balanced program (sizes already patched). -/
def Prog.enc : Prog → List Nat
  | .w32 v => PCMCDB.w32 v
  | .bytes bs => bs
  | .chunk ty desc body =>
    let b := Prog.encList body
    hdrBytes ty desc (hdrLen desc + b.length + pad4 b.length + 4) ++
      b ++ List.replicate (pad4 b.length) 0 ++ PCMCDB.w32 CHUNK_END

def Prog.encList : List Prog → List Nat
  | [] => []
  | p :: ps => Prog.enc p ++ Prog.encList ps
end

mutual
/-- Bytes as they stand before `getData`'s back-patch: size fields zero. -/
def Prog.raw : Prog → List Nat
  | .w32 v => PCMCDB.w32 v
  | .bytes bs => bs
  | .chunk ty desc body =>
    let b := Prog.rawList body
    hdrBytes ty desc 0 ++ b ++ List.replicate (pad4 b.length) 0 ++ PCMCDB.w32 CHUNK_END

def Prog.rawList : List Prog → List Nat
  | [] => []
  | p :: ps => Prog.raw p ++ Prog.rawList ps
end

mutual
/-- The `closedChunks` entries a program contributes when it starts writing
at absolute position `s`, in close order. -/
def Prog.closedAt : Prog → Nat → List (Nat × Nat × Nat)
  | .w32 _, _ => []
  | .bytes _, _ => []
  | .chunk ty desc body, s =>
    Prog.closedAtList body (s + hdrLen desc) ++
      [(ty, s, (Prog.enc (.chunk ty desc body)).length)]

def Prog.closedAtList : List Prog → Nat → List (Nat × Nat × Nat)
  | [], _ => []
  | p :: ps, s => Prog.closedAt p s ++ Prog.closedAtList ps (s + (Prog.enc p).length)
end

/-! ## JS number parsing (`parseFloat`, `parseInt`) and coercions

These model the standard-library functions `sqliteToCDB` leans on when it
re-encodes cell values.  `parseFloat` is modelled exactly on the decimal
grammar (sign, digits, fraction, exponent, `Infinity`, leading whitespace,
trailing garbage ignored); magnitudes far outside float64 range are clamped
to `Infinity`/a sub-float32-denormal stand-in, which coincides with the JS
result after the float32 store.  `parseInt` is modelled for decimal strings
(the canonical list texts never carry a `0x` prefix or ≥ 2^53 digits, where
JS double rounding would deviate). -/

def isWS (c : Nat) : Bool := c = 32 || c = 9 || c = 10 || c = 11 || c = 12 || c = 13

def digitsVal (ds : List Nat) : Nat := ds.foldl (fun a c => a * 10 + (c - 48)) 0

/-- `ToInt32` of an integer-valued number (the `| 0` coercion). -/
def jsToInt32 (i : Int) : Int := (i + 2147483648) % 4294967296 - 2147483648

/-- `parseInt(elem) | 0` as used by `writeListData` for integer lists:
`NaN | 0` is 0. -/
def parseIntJS (s : List Nat) : Int :=
  let t := s.dropWhile isWS
  let (sign, t1) : Bool × List Nat :=
    match t with
    | 45 :: r => (true, r)
    | 43 :: r => (false, r)
    | r => (false, r)
  let ds := t1.takeWhile isDigitByte
  if ds.isEmpty then 0
  else jsToInt32 (if sign then -(digitsVal ds : Int) else (digitsVal ds : Int))

/-- Result of `parseFloat`: NaN, a signed infinity, or a signed exact
magnitude `num / den` (`den ≠ 0`; kept as a numerator/denominator pair of
naturals so every later computation is plain integer arithmetic). -/
inductive PFloat where
  | nan
  | inf (sign : Bool)
  | q (sign : Bool) (num den : Nat)
deriving Repr, DecidableEq

def parseFloatJS (s : List Nat) : PFloat :=
  let t := s.dropWhile isWS
  let (sign, t1) : Bool × List Nat :=
    match t with
    | 45 :: r => (true, r)
    | 43 :: r => (false, r)
    | r => (false, r)
  if t1.take 8 = [73, 110, 102, 105, 110, 105, 116, 121] then .inf sign
  else
    let ip := t1.takeWhile isDigitByte
    let r1 := t1.drop ip.length
    let (fp, r2) : List Nat × List Nat :=
      match r1 with
      | 46 :: rr => (rr.takeWhile isDigitByte, rr.dropWhile isDigitByte)
      | _ => ([], r1)
    if ip.isEmpty ∧ fp.isEmpty then .nan
    else
      let ex : Int :=
        match r2 with
        | c :: rr =>
          if c = 101 ∨ c = 69 then
            match rr with
            | 45 :: ds => -(digitsVal (ds.takeWhile isDigitByte) : Int)
            | 43 :: ds => (digitsVal (ds.takeWhile isDigitByte) : Int)
            | ds => (digitsVal (ds.takeWhile isDigitByte) : Int)
          else 0
        | [] => 0
      let exTot : Int := ex - fp.length
      let mant : Nat := digitsVal (ip ++ fp)
      if mant = 0 then .q sign 0 1
      else
        let mag10 : Int := (natDigits mant).length + exTot
        if 400 < mag10 then .inf sign
        else if mag10 < -400 then .q sign 1 (2 ^ 200)
        else if 0 ≤ exTot then .q sign (mant * 10 ^ exTot.toNat) 1
        else .q sign mant (10 ^ (-exTot).toNat)

/-- Round the nonnegative fraction `num / den` to the nearest integer, ties
to even. -/
def rte (num den : Nat) : Nat :=
  let q := num / den
  let r := num % den
  if den < 2 * r then q + 1
  else if 2 * r < den then q
  else if q % 2 = 0 then q else q + 1

/-- Floor of the base-2 logarithm of the positive fraction `num / den`
(fuel-bounded; the fuel covers every magnitude `parseFloatJS` produces). -/
def qlog2F : Nat → Nat → Nat → Int → Int
  | 0, _, _, acc => acc
  | fuel + 1, num, den, acc =>
    if 2 * den ≤ num then qlog2F fuel num (2 * den) (acc + 1)
    else if num < den then qlog2F fuel (2 * num) den (acc - 1)
    else acc

def qlog2 (num den : Nat) : Int := qlog2F 4000 num den 0

/-- Round the signed magnitude `num / den` to the nearest float32
(`setFloat32` of the parsed double; the double-rounding corner of decimal →
float64 → float32 is modelled as a single rounding).  The promotion test
uses `≤` rather than `=`: a rounded significand strictly above `2 ^ 24`
cannot arise (the fuel of `qlog2` covers every parsed magnitude), and the
inequality keeps the significand bound a local fact. -/
def roundF32 (sign : Bool) (num den : Nat) : F32 :=
  if num = 0 then .finite sign 0 0
  else
    let e : Int := qlog2 num den
    let eg : Int := max (-149) (e - 23)
    let (n2, d2) : Nat × Nat :=
      if 0 ≤ eg then (num, den * 2 ^ eg.toNat) else (num * 2 ^ (-eg).toNat, den)
    let n : Nat := rte n2 d2
    let (n, eg) : Nat × Int := if 2 ^ 24 ≤ n then (2 ^ 23, eg + 1) else (n, eg)
    if n = 0 then .finite sign 0 0
    else if n < 2 ^ 23 then .finite sign 0 n
    else
      let ex : Int := eg + 150
      if 255 ≤ ex then .inf sign
      else .finite sign ex.toNat (n - 2 ^ 23)

def roundF32pf : PFloat → F32
  | .nan => .nan
  | .inf s => .inf s
  | .q s num den => roundF32 s num den

/-- `parseFloat(String(v))` on a JS number that came from `getFloat32`: the
identity, except that `String(-0)` is `"0"`, so `-0` collapses to `+0`. -/
def pfNum : F32 → F32
  | .finite true 0 0 => .finite false 0 0
  | f => f

/-- `String(value).slice(1, -1)` of `writeListData`. -/
def sliceInner (s : List Nat) : List Nat := (s.drop 1).dropLast

/-- `content.split(',')` (never called on the empty string). -/
def splitCommaF : List Nat → List Nat → List (List Nat)
  | [], acc => [acc.reverse]
  | c :: rest, acc =>
    if c = 44 then acc.reverse :: splitCommaF rest [] else splitCommaF rest (c :: acc)

def splitComma (s : List Nat) : List (List Nat) := splitCommaF s []

/-- `String.prototype.trim`. -/
def trimJS (s : List Nat) : List Nat :=
  ((s.dropWhile isWS).reverse.dropWhile isWS).reverse

/-! ## Cell coercions used by the column writers

Cells whose runtime type does not match the column's CDB data type cannot
come out of the decoder; the fallbacks mirror the JS coercions where they
are simple and are documented where they are not. -/

/-- `write32(value)` of an integer cell (`ToUint32`). -/
def cellToU32 : Cell → Nat
  | .int i => toU32 i
  | .float _ => 0
  | .text _ => 0

/-- `setFloat32(parseFloat(value))` for a `REAL` column cell. -/
def cellF32Word : Cell → Nat
  | .float f => putF32 (pfNum f)
  | .int i => putF32 (roundF32 (decide (i < 0)) i.natAbs 1)
  | .text s => putF32 (roundF32pf (parseFloatJS s))

/-- `TextEncoder().encode(value)` for a string cell (`ToString` of the rare
non-string cell is not modelled beyond integers). -/
def cellBytes : Cell → List Nat
  | .text s => s
  | .int i => intToText i
  | .float _ => []

/-- `String(value)` for a list-text cell. -/
def cellText : Cell → List Nat
  | .text s => s
  | .int i => intToText i
  | .float _ => []

/-! ## The shipped `TABLE_FLAGS_BY_ID` map -/

/-- `TABLE_FLAGS_BY_ID`, transcribed entry for entry.  A JS property access
on a missing key yields `undefined`, modelled by `Option`. -/
def tableFlagsList : List (Nat × Nat) :=
  [(3, 65), (4, 50), (8, 129), (9, 241), (10, 209), (11, 241), (12, 241), (14, 129),
   (16, 65), (17, 97), (18, 49), (19, 49), (22, 225), (23, 161), (24, 65), (25, 188),
   (26, 113), (27, 33), (28, 51), (29, 33), (30, 129), (31, 177), (35, 129), (36, 241),
   (39, 49), (40, 241), (41, 81), (44, 241), (45, 113), (50, 33), (51, 76), (52, 97),
   (53, 81), (54, 33), (55, 81), (59, 241), (65, 227), (80, 33), (81, 19), (83, 19),
   (84, 19), (85, 35), (86, 33), (87, 241), (92, 113), (93, 35), (94, 82), (98, 49),
   (99, 35), (100, 65), (101, 83), (107, 163), (108, 241), (109, 75), (110, 49),
   (111, 81), (113, 49), (117, 35), (118, 129), (119, 33), (122, 241), (124, 65),
   (125, 60), (126, 19), (127, 19), (128, 65), (129, 81), (131, 241), (132, 44),
   (134, 241), (135, 51), (136, 99), (137, 227), (142, 195), (143, 145), (144, 113),
   (145, 33), (146, 35), (147, 49), (149, 19), (152, 241), (153, 49), (155, 33),
   (159, 33), (164, 243), (166, 241), (168, 161), (170, 146), (172, 241), (173, 33),
   (175, 241), (177, 130), (179, 113), (180, 145), (181, 97), (185, 82), (186, 193),
   (192, 65), (193, 242), (200, 50), (202, 98), (203, 33), (204, 65), (205, 49),
   (206, 92), (207, 145), (208, 65), (209, 33), (210, 49), (211, 34), (213, 17),
   (215, 177), (217, 81), (218, 156), (220, 241), (221, 145), (223, 65), (224, 97),
   (225, 65), (228, 241), (229, 161), (230, 49), (231, 33), (236, 33), (240, 241),
   (241, 65), (242, 19), (244, 178), (245, 241), (246, 33), (249, 115), (250, 193),
   (251, 83), (252, 193), (253, 49), (254, 92), (255, 83), (256, 19), (257, 81),
   (258, 97), (259, 33), (263, 65), (264, 129), (265, 33), (266, 129), (268, 33),
   (270, 19), (273, 65), (274, 129)]

def tableFlagsById (id : Nat) : Option Nat := tableFlagsList.lookup id

/-! ## The relational model of the sql.js database

`cdbToSQLite` materialises the CDB file into a SQLite database; only the
parts of that database the codec itself reads back are modelled: the
`DB_STRUCTURE` rows (table name and id, in insertion order), and per user
table its name, its column schema (name, base type, and the packed metadata
integer stored in the declared column type) in `PRAGMA table_info` order,
and its rows in rowid order. -/

inductive BaseTy where
  | INTEGER
  | REAL
  | TEXT
deriving Repr, DecidableEq

structure SCol where
  name : List Nat
  base : BaseTy
  /-- The declared type string `'<base> <enc>'` as `PRAGMA table_info`
  returns it (without the quotes); `sqliteToCDB` re-extracts the integer
  with `colType.match(/\s+(\d+)/)` + `parseInt`, and `match[1]` throws a
  TypeError when the match is `null`. -/
  type : List Nat
deriving Repr, DecidableEq

structure STable where
  name : List Nat
  cols : List SCol
  rows : List (List Cell)
deriving Repr, DecidableEq

structure SDb where
  /-- `SELECT TableName, ID FROM DB_STRUCTURE` in insertion order. -/
  struct : List (List Nat × Nat)
  tables : List STable
deriving Repr, DecidableEq

def dbStructName : List Nat := [68, 66, 95, 83, 84, 82, 85, 67, 84, 85, 82, 69]

/-! ## `cdbToSQLite`: from the decoded chunk tree to the database -/

def asNumOpt : Option CVal → Except String Nat
  | some (.num n) => .ok n
  | _ => .error "model: expected a numeric chunk value"

/-- `table.rowCount > 0` is false for a missing or non-numeric value, and
`rowCount` is not used anywhere else, so those cases behave like zero. -/
def rcOf : Option CVal → Nat
  | some (.num n) => n
  | _ => 0

/-- The `switch (col.type)` choosing the SQLite base type. -/
def baseOf (dt : Nat) : BaseTy :=
  if dt = DT_FLOAT then .REAL
  else if dt = DT_STRING ∨ dt = DT_INTEGER_LIST ∨ dt = DT_FLOAT_LIST then .TEXT
  else .INTEGER

/-- ASCII of the SQLite base type names. -/
def baseTyText : BaseTy → List Nat
  | .INTEGER => [73, 78, 84, 69, 71, 69, 82]
  | .REAL => [82, 69, 65, 76]
  | .TEXT => [84, 69, 88, 84]

/-- The declared column type `'${baseType} ${encodedValue}'` the decoder
writes into `CREATE TABLE` and `PRAGMA table_info` later returns. -/
def declType (b : BaseTy) (e : Nat) : List Nat := baseTyText b ++ [32] ++ natDigits e

/-- One entry of `columnDefs`: `encodedValue = (tableId * 256 + columnIndex)
* 16 + (col.type & 0xF)`, stored as the declared type string
`'<base> <enc>'`.  A column without a description or a `COLUMN_INDEX` value
is outside the model (the JS would carry the string `"null"` resp. a `NaN`
that derails the later re-encode). -/
def colOfColRec (tid : Nat) (c : ColRec) : Except String SCol := do
  let name ← match c.name with
    | some n => .ok n
    | none => .error "model: column without description"
  let dt ← asNumOpt c.dtype
  let cidx ← asNumOpt c.columnIndex
  .ok ⟨name, baseOf dt, declType (baseOf dt) ((tid * 256 + cidx) * 16 + dt % 16)⟩

/-- `col.data[rowIdx]` during the batched insert; sql.js refuses to bind a
missing (`undefined`) parameter. -/
def cellAt (c : ColRec) (i : Nat) : Except String Cell :=
  match c.data.get? i with
  | some x => .ok x
  | none => .error "model: missing cell (sql.js cannot bind undefined)"

def rowAt (cs : List ColRec) (i : Nat) : Except String (List Cell) :=
  cs.mapM (fun c => cellAt c i)

def rowsOf (rc : Nat) (cs : List ColRec) : Except String (List (List Cell)) :=
  (List.range rc).mapM (rowAt cs)

/-- One iteration of the `tables.forEach` in `cdbToSQLite`: build the
`DB_STRUCTURE` row and the user table.  The guards mirror hard failures of
the JS: a `CREATE TABLE` with no columns, with a `"` inside an interpolated
identifier, or with duplicate column names is a SQL error, and with more
than 999 columns `maxRowsPerBatch` is zero and the insert loop never
advances. -/
def tableOfRec (t : TableRec) : Except String (STable × (List Nat × Nat)) := do
  let name ← match t.name with
    | some n => .ok n
    | none => .error "model: table without description"
  let tid ← asNumOpt t.tableId
  let rc := rcOf t.rowCount
  let cs ← match t.columns with
    | some (.cols cs) => .ok cs
    | _ => .error "model: table without COLUMN_DEFINITIONS (JS TypeError)"
  let cols ← cs.mapM (colOfColRec tid)
  if cs.isEmpty then
    .error "model: CREATE TABLE with no columns (SQL syntax error)"
  else if name.contains 34 || cols.any (fun c => c.name.contains 34) then
    .error "model: a quote in an identifier breaks the interpolated SQL"
  else if ¬ (cols.map SCol.name).Nodup then
    .error "model: duplicate column name (SQL error)"
  else if rc ≠ 0 ∧ 999 < cs.length then
    .error "model: 999-variable batch limit gives an empty batch"
  else do
    let rows ← rowsOf rc cs
    .ok (⟨name, cols, rows⟩, (name, tid))

/-- `cdbToSQLite` from the decompressed byte stream on: read the wrapper
chunk, pick out `DATABASE_TABLES`, and materialise each table.  The reader
fuel is an artifact of the embedding; one unit is spent per chunk or loop
step and every successfully parsed chunk consumes at least 24 bytes, so
`length + 100` covers every input the JS recursion returns on.  Clashing
table names (a repeated name, or the reserved `DB_STRUCTURE`) make the
second `CREATE TABLE` fail in JS and are errors here. -/
def decodeStream (d : List Nat) : Except String SDb := do
  let (wrapperChunk, _) ← readChunk (d.length + 100) d 0
  let ch ← chunkChildren wrapperChunk
  let ts ← match childGet ch DATABASE_TABLES with
    | some (.tables ts) => .ok ts
    | _ => .error "model: DATABASE_TABLES missing (JS TypeError)"
  let recs ← ts.mapM tableOfRec
  let names := recs.map (fun r => r.2.1)
  if ¬ names.Nodup ∨ dbStructName ∈ names then
    .error "model: CREATE TABLE name clash (SQL error)"
  else
    .ok ⟨recs.map (fun r => r.2), recs.map (fun r => r.1)⟩

/-! ## `compressCDB` / `decompressCDB`

The zlib codec itself (`pako.deflate` / `pako.inflate`) is modelled as the
identity on byte lists: the claims only ever compare byte streams on the
decompressed side of it, and the model keeps `inflate (deflate u) = u`
definitionally. -/

def deflate (u : List Nat) : List Nat := u

def inflate (c : List Nat) : List Nat := c

def compressCDB (u : List Nat) : List Nat :=
  let compressed := deflate u
  w32 0xFFFFFFFF ++ w32 u.length ++ w32 compressed.length ++ compressed

def decompressCDB (d : List Nat) : Except String (List Nat) :=
  if d.length < 4 then .error "model: getUint32 outside the buffer (RangeError)"
  else if rd32 (byteAt d 0) (byteAt d 1) (byteAt d 2) (byteAt d 3) ≠ 0xFFFFFFFF then
    .ok d
  else if d.length < 12 then .error "model: getUint32 outside the buffer (RangeError)"
  else
    let csize := rd32 (byteAt d 8) (byteAt d 9) (byteAt d 10) (byteAt d 11)
    if 12 + csize ≤ d.length then .ok (inflate ((d.drop 12).take csize))
    else .error "model: Uint8Array view outside the buffer (RangeError)"

/-- The full `cdbToSQLite` pipeline. -/
def cdbToSQLite (d : List Nat) : Except String SDb := do
  let u ← decompressCDB d
  decodeStream u

/-! ## `sqliteToCDB`: from the database to writer programs -/

/-- One row's worth of `writeListData`: `String(value).slice(1, -1)`, the
comma split with per-element `trim`, and the per-element conversion —
`setFloat32(parseFloat(elem))` for float lists, `parseInt(elem) | 0` for
integer lists.  Returns the pushed count and the pushed words. -/
def listEntryOf (dt : Nat) (c : Cell) : Nat × List Nat :=
  let content := sliceInner (cellText c)
  if content = [] then (0, [])
  else
    let elems := (splitComma content).map trimJS
    (elems.length,
     elems.map (fun e =>
       if dt = DT_FLOAT_LIST then putF32 (roundF32pf (parseFloatJS e))
       else toU32 (parseIntJS e)))

/-- `CDBWriter.writeColumnData` as the chunk programs it emits: always a
`COLUMN_VALUES` chunk (with an empty body for an unknown data type, since
the `switch` has no default), plus a `COLUMN_BLOB_DATA` chunk when string or
list payload bytes exist — `writeStringData`/`writeListData` then close the
values chunk early and open the blob chunk as a sibling, which is exactly
the two-chunk sequence produced here. -/
def writeColumnProgs (dt : Nat) (cells : List Cell) : List Prog :=
  if dt = DT_INTEGER then
    [.chunk COLUMN_VALUES none (cells.map (fun c => .w32 (cellToU32 c)))]
  else if dt = DT_FLOAT then
    [.chunk COLUMN_VALUES none (cells.map (fun c => .w32 (cellF32Word c)))]
  else if dt = DT_STRING then
    let sdata := (cells.map (fun c => cellBytes c ++ [0])).flatten
    let valuesChunk : Prog :=
      .chunk COLUMN_VALUES none (cells.map (fun c => .w32 ((cellBytes c).length + 1)))
    if 0 < sdata.length then
      [valuesChunk, .chunk COLUMN_BLOB_DATA none [.w32 sdata.length, .bytes sdata]]
    else [valuesChunk]
  else if dt = DT_INTEGER_LIST ∨ dt = DT_FLOAT_LIST then
    let entries := cells.map (listEntryOf dt)
    let listData := (entries.map (fun e => e.2)).flatten
    let valuesChunk : Prog :=
      .chunk COLUMN_VALUES none (entries.map (fun e => .w32 e.1))
    if 0 < listData.length then
      [valuesChunk,
       .chunk COLUMN_BLOB_DATA none (.w32 (listData.length * 4) :: listData.map (fun w => .w32 w))]
    else [valuesChunk]
  else [.chunk COLUMN_VALUES none []]

/-! ## `Object.keys(columnInfo)` and the per-column metadata extraction

`sqliteToCDB` rebuilds each table's column list by filling a plain JS
object `columnInfo` keyed by column name (one assignment per
`PRAGMA table_info` row) and then iterating `Object.keys(columnInfo)`.  Per
the ECMAScript own-property order, keys that are array indices — the
canonical decimal form of an integer below `2^32 - 1` — come first, in
ascending numeric order, followed by the remaining string keys in
first-insertion order; assigning to an existing key keeps its position and
overwrites its value.  A column whose name is such an integer string is
therefore emitted ahead of the others, and duplicate names collapse to a
single key. -/

/-- Is the byte string the canonical decimal form of an array index: `"0"`,
or digits with no leading zero, of value `< 2^32 - 1`? -/
def isArrayIndex (s : List Nat) : Bool :=
  match s with
  | [] => false
  | [c] => isDigitByte c
  | c :: d :: rest =>
    decide (c ≠ 48) && isDigitByte c && (d :: rest).all isDigitByte &&
    decide (digitsVal (c :: d :: rest) < 4294967295)

/-- Keep the first occurrence of every element (JS property-creation
order). -/
def firstDedup (l : List (List Nat)) : List (List Nat) :=
  l.foldl (fun acc x => if x ∈ acc then acc else acc ++ [x]) []

/-- `Object.keys` of an object whose properties were created in the order
`names`: the array-index keys in ascending numeric order, then the other
keys in first-insertion order. -/
def jsObjectKeys (names : List (List Nat)) : List (List Nat) :=
  (firstDedup (names.filter isArrayIndex)).insertionSort
    (fun a b => digitsVal a ≤ digitsVal b) ++
  firstDedup (names.filter (fun s => !(isArrayIndex s)))

/-- The `columnInfo[colName]` record.  The `sqliteType` field is omitted:
the writer never reads it. -/
structure ColInfo where
  cdbDataType : Nat
  cdbColumnIndex : Nat
deriving Repr, DecidableEq

/-- Scan for the first `\s+(\d+)` match: the capture starts at the first
digit byte that is preceded by a whitespace byte and runs to the end of the
digit run. -/
def matchEncGo : Bool → List Nat → Option (List Nat)
  | _, [] => none
  | prevWS, c :: rest =>
    if prevWS && isDigitByte c then some ((c :: rest).takeWhile isDigitByte)
    else matchEncGo (isWS c) rest

/-- `colType.match(/\s+(\d+)/)`, reduced to the captured digit run. -/
def matchEnc (colType : List Nat) : Option (List Nat) := matchEncGo false colType

/-- One `schemaResult[0].values.forEach` step: when the match is `null`,
`match[1]` throws a TypeError; otherwise `parseInt(match[1])` is the digit
run's value (exact below `2^53`, which covers every annotation the decoder
itself writes), `encodedValue & 0xF` keeps the low four bits and
`Math.floor(encodedValue / 16) & 0xFF` the next eight (the `ToInt32` inside
`&` is congruence modulo `2^32`, which `16` and `256` divide). -/
def colInfoOf (colType : List Nat) : Except String ColInfo :=
  match matchEnc colType with
  | none => .error "model: colType.match is null, match[1] throws (JS TypeError)"
  | some ds => .ok ⟨digitsVal ds % 16, digitsVal ds / 16 % 256⟩

/-- One `columnNames.forEach` iteration: the `COLUMN` chunk with its
`COLUMN_INDEX`, `COLUMN_DATA_TYPE` (described by the column name) and data
chunks.  `columnData[j]` holds, in row order, exactly the entries the
transposition pass pushed into slot `j`: `row[j]` for every row long enough
to have one. -/
def colProgOf (rows : List (List Cell)) (j : Nat) (name : List Nat)
    (info : ColInfo) : Prog :=
  .chunk COLUMN (some name)
    ([.chunk COLUMN_INDEX none [.w32 info.cdbColumnIndex],
      .chunk COLUMN_DATA_TYPE (some name) [.w32 info.cdbDataType]] ++
     writeColumnProgs info.cdbDataType (rows.filterMap (fun r => r.get? j)))

/-- One `tables.forEach` iteration of `sqliteToCDB` once the per-column
records are resolved: `pairs` is `Object.keys(columnInfo)` zipped with the
looked-up `columnInfo` records, and the written column count is the key
count `Object.keys(columnInfo).length`.  A missing `TABLE_FLAGS_BY_ID`
entry is `undefined`, which `setUint32` coerces to 0. -/
def tableProgOf (name : List Nat) (id : Nat) (pairs : List (List Nat × ColInfo))
    (rows : List (List Cell)) : Prog :=
  .chunk TABLE (some name)
    [.chunk TABLE_ID none [.w32 id],
     .chunk ROW_COUNT none [.w32 rows.length],
     .chunk TABLE_FLAGS none [.w32 ((tableFlagsById id).getD 0)],
     .chunk COLUMN_DEFINITIONS none
       (.w32 ARRAY_BEGIN :: .w32 pairs.length ::
        (pairs.enum.map (fun jp => colProgOf rows jp.1 jp.2.1 jp.2.2) ++
         [.w32 ARRAY_END]))]

/-- One `DB_STRUCTURE` row's table chunk.  The failure paths mirror the JS:
a `"` in the interpolated table name is a SQL parse error inside `db.exec`;
a name with no table behind it makes `schemaResult[0]` resp. the `SELECT`
throw; a declared column type without a whitespace-preceded integer makes
`match[1]` throw (see `colInfoOf`); and when `columnInfo` ends up with
fewer keys than a row has entries (duplicate column names), the
transposition reads `columnData[colIdx]` as `undefined` and `.push` throws.
The `columnInfo` value looked up for a key is the last record assigned to
it. -/
def tableProg (db : SDb) : List Nat × Nat → Except String Prog
  | (n, i) =>
    if n.contains 34 then
      .error "model: a quote in the table name breaks the interpolated SQL"
    else
      match db.tables.find? (fun t => decide (t.name = n)) with
      | none => .error "model: no such table (sql.js exec throws)"
      | some t =>
        (t.cols.mapM (fun c => (colInfoOf c.type).map (fun v => (c.name, v)))) >>=
          fun infosAll =>
            if t.rows.any (fun r =>
                decide ((jsObjectKeys (t.cols.map (fun c => c.name))).length < r.length)) then
              .error "model: columnData[colIdx] is undefined (JS TypeError)"
            else
              .ok (tableProgOf n i
                ((jsObjectKeys (t.cols.map (fun c => c.name))).map
                  (fun k => (k, ((infosAll.reverse).lookup k).getD ⟨0, 0⟩)))
                t.rows)

def cyanideDesc : List Nat :=
  [99, 121, 97, 110, 105, 100, 101, 32, 100, 97, 116, 97, 98, 97, 115, 101]

/-- `sqliteToCDB` as the writer program it issues.  `ORDER BY ID` is
modelled as a stable sort of the `DB_STRUCTURE` rows on the id.  An empty
result set from the `DB_STRUCTURE` query is the `No DB_STRUCTURE table
found` throw. -/
def dbProgs (db : SDb) : Except String (List Prog) :=
  if db.struct.isEmpty then .error "No DB_STRUCTURE table found"
  else do
    let sorted := db.struct.insertionSort (fun a b => a.2 ≤ b.2)
    let tps ← sorted.mapM (tableProg db)
    .ok [Prog.chunk WRAPPER (some cyanideDesc)
      [.chunk DATABASE_FLAGS none [.w32 274],
       .chunk DATABASE_TABLES none
         (.w32 ARRAY_BEGIN :: .w32 sorted.length :: (tps ++ [.w32 ARRAY_END]))]]

/-- The bytes `writer.getData()` returns for the issued program. -/
def sqliteToCDBBytes (db : SDb) : Except String (List Nat) :=
  (dbProgs db).map (fun ps => getData (wRun (Prog.cmdsList ps) WState.initial))

/-- The full `sqliteToCDB` pipeline (ending in `compressCDB`). -/
def sqliteToCDB (db : SDb) : Except String (List Nat) :=
  (sqliteToCDBBytes db).map compressCDB

/-! ## Observation helpers and concrete databases used by the claims -/

instance instDecEqExcept {ε α : Type} [DecidableEq ε] [DecidableEq α] :
    DecidableEq (Except ε α) := fun a b =>
  match a, b with
  | .ok x, .ok y =>
    if h : x = y then .isTrue (by rw [h]) else .isFalse (fun hc => by cases hc; exact h rfl)
  | .error x, .error y =>
    if h : x = y then .isTrue (by rw [h]) else .isFalse (fun hc => by cases hc; exact h rfl)
  | .ok _, .error _ => .isFalse (fun hc => by cases hc)
  | .error _, .ok _ => .isFalse (fun hc => by cases hc)

def isTableChunk : Prog → Bool
  | .chunk ty _ _ => ty == TABLE
  | _ => false

/-- The `TABLE` chunks inside the `DATABASE_TABLES` chunk of an emitted
wrapper program, in emission order. -/
def tableChunksOf (ps : List Prog) : List Prog :=
  match ps with
  | [Prog.chunk _ _ [_, Prog.chunk _ _ body]] => body.filter isTableChunk
  | _ => []

/-- The id a `TABLE` chunk program carries in its leading `TABLE_ID` child. -/
def progTableId : Prog → Nat
  | .chunk _ _ (Prog.chunk _ _ [Prog.w32 id] :: _) => id
  | _ => 0

def progDescr : Prog → Option (List Nat)
  | .chunk _ d _ => d
  | _ => none

/-- The column names of a `TABLE` chunk program: the descriptions of the
`COLUMN` chunks inside its `COLUMN_DEFINITIONS` child, in emission order. -/
def progColumnNames : Prog → List (List Nat)
  | .chunk _ _ [_, _, _, Prog.chunk _ _ (_ :: _ :: rest)] =>
    rest.filterMap (fun q => match q with
      | Prog.chunk ty (some nm) _ => if ty = COLUMN then some nm else none
      | _ => none)
  | _ => []

/-- The value word a `TABLE` chunk program carries in its `TABLE_FLAGS`
child (the third child). -/
def progTableFlags : Prog → Nat
  | .chunk _ _ [_, _, Prog.chunk _ _ [Prog.w32 f], _] => f
  | _ => 0

/-- A database whose `DB_STRUCTURE` rows are deliberately not id-sorted. -/
def c6db : SDb :=
  ⟨[([66], 7), ([65], 5)],
   [⟨[66], [⟨[97], .INTEGER, declType .INTEGER (7 * 4096)⟩,
            ⟨[98], .INTEGER, declType .INTEGER (7 * 4096 + 16)⟩], []⟩,
    ⟨[65], [⟨[99], .INTEGER, declType .INTEGER (5 * 4096)⟩], []⟩]⟩

def c6ps : List Prog := match dbProgs c6db with | .ok ps => ps | .error _ => []

/-- A CDB byte stream (already uncompressed, so `decompressCDB` passes it
through) holding one table `"T"` (id 5) whose column chunks appear in the
order `"B"`, `"1"`. -/
def c6xprogs : List Prog :=
  [.chunk WRAPPER (some cyanideDesc)
    [.chunk DATABASE_FLAGS none [.w32 274],
     .chunk DATABASE_TABLES none
       [.w32 ARRAY_BEGIN, .w32 1,
        tableProgOf [84] 5 [([66], ⟨0, 0⟩), ([49], ⟨0, 1⟩)] [],
        .w32 ARRAY_END]]]

def c6xfile : List Nat := getData (wRun (Prog.cmdsList c6xprogs) WState.initial)

/-- The database `cdbToSQLite` materialises from `c6xfile`: columns in file
order `"B"`, `"1"`. -/
def c6xdb : SDb :=
  ⟨[([84], 5)],
   [⟨[84], [⟨[66], .INTEGER, declType .INTEGER 20480⟩,
            ⟨[49], .INTEGER, declType .INTEGER 20496⟩], []⟩]⟩

def c6xps : List Prog := match dbProgs c6xdb with | .ok ps => ps | .error _ => []

/-- A single table whose id 999 has no `TABLE_FLAGS_BY_ID` entry. -/
def c7db : SDb :=
  ⟨[([84], 999)], [⟨[84], [⟨[65], .INTEGER, declType .INTEGER (999 * 4096 + 16)⟩], []⟩]⟩

def c7out : List Nat := match sqliteToCDBBytes c7db with | .ok o => o | .error _ => []

def c7prog : Prog := match tableProg c7db ([84], 999) with | .ok p => p | .error _ => .w32 0

/-- A valid CDB byte stream that differs from the re-encode of its own
decode: its `DATABASE_FLAGS` value word is 275 (the reader stores and
ignores it; the encoder always writes back 274). -/
def c1progs : List Prog :=
  [.chunk WRAPPER (some cyanideDesc)
    [.chunk DATABASE_FLAGS none [.w32 275],
     .chunk DATABASE_TABLES none
       [.w32 ARRAY_BEGIN, .w32 1,
        tableProgOf [84] 5 [([65], ⟨0, 0⟩)] [],
        .w32 ARRAY_END]]]

def c1file : List Nat := getData (wRun (Prog.cmdsList c1progs) WState.initial)

/-- The database `cdbToSQLite` materialises from `c1file`. -/
def c1db : SDb :=
  ⟨[([84], 5)], [⟨[84], [⟨[65], .INTEGER, declType .INTEGER 20480⟩], []⟩]⟩

/-- The uncompressed byte stream the encoder emits for `c1db`. -/
def c1out : List Nat := match sqliteToCDBBytes c1db with | .ok o => o | .error _ => []

/-- The texts `"(1)"`, `"(1.0,2.0)"`, `"()"`. -/
def c8texts : List Cell :=
  [.text [40, 49, 41], .text [40, 49, 46, 48, 44, 50, 46, 48, 41], .text [40, 41]]

/-- A float-list (type 10) column chunk holding the rows
`[[1.0], [1.0, 2.0], []]`: counts `[1, 2, 0]` and the three float words. -/
def c8prog : Prog :=
  .chunk COLUMN (some [70])
    [.chunk COLUMN_INDEX none [.w32 1],
     .chunk COLUMN_DATA_TYPE (some [70]) [.w32 10],
     .chunk COLUMN_VALUES none [.w32 1, .w32 2, .w32 0],
     .chunk COLUMN_BLOB_DATA none
       [.w32 12, .bytes (w32 1065353216 ++ w32 1065353216 ++ w32 1073741824)]]

def c8bytes : List Nat := Prog.enc c8prog

/-- The back-patch loop of `getData`, as a function of the recorded list. -/
def patchList (es : List (Nat × Nat × Nat)) (buf : List Nat) : List Nat :=
  es.foldl (fun b c => setBytes b (c.2.1 + 4) (w32 c.2.2)) buf

mutual
/-- Every chunk of the program starts 4-byte aligned when the program itself
starts at `s` (true of all programs `sqliteToCDB` issues: raw byte runs only
occur as the final payload of leaf chunks). -/
def Prog.alignedAt : Prog → Nat → Bool
  | .w32 _, _ => true
  | .bytes _, _ => true
  | .chunk _ desc body, s => s % 4 == 0 && Prog.alignedAtList body (s + hdrLen desc)

def Prog.alignedAtList : List Prog → Nat → Bool
  | [], _ => true
  | p :: ps, s => Prog.alignedAt p s && Prog.alignedAtList ps (s + (Prog.enc p).length)
end

/-! # Theorems -/

/-! ## Basic word/padding lemmas -/

theorem w32_length (v : Nat) : (w32 v).length = 4 := rfl

theorem rd32_w32 (v : Nat) (h : v < two32) :
    rd32 (v % 256) (v / 256 % 256) (v / 65536 % 256) (v / 16777216 % 256) = v := by
  unfold rd32 two32 at *
  omega

theorem pad4_lt (p : Nat) : pad4 p < 4 := by
  unfold pad4; omega

theorem pad4_add_self (p : Nat) : (p + pad4 p) % 4 = 0 := by
  unfold pad4; omega

theorem pad4_of_aligned (p : Nat) (h : p % 4 = 0) : pad4 p = 0 := by
  unfold pad4; omega

theorem pad4_add_left (a b : Nat) (h : a % 4 = 0) : pad4 (a + b) = pad4 b := by
  unfold pad4; omega

/-! ## Drop-view frame lemmas for the reader -/

theorem byteAt_drop (d : List Nat) (p i : Nat) : byteAt d (p + i) = byteAt (d.drop p) i := by
  unfold byteAt
  simp [List.get?_eq_getElem?, List.getElem?_drop]

theorem le_length_of_drop_eq {d x rest : List Nat} {p : Nat}
    (h : d.drop p = x ++ rest) (hx : x ≠ []) : p ≤ d.length := by
  by_contra hb
  push_neg at hb
  rw [List.drop_eq_nil_of_le (le_of_lt hb)] at h
  exact hx (List.append_eq_nil.mp h.symm).1

theorem length_drop_of_drop_eq {d x rest : List Nat} {p : Nat}
    (h : d.drop p = x ++ rest) (hx : x ≠ []) :
    d.length - p = x.length + rest.length := by
  have := congrArg List.length h
  rw [List.length_drop, List.length_append] at this
  exact this

theorem drop_add_view {d : List Nat} {p : Nat} (k : Nat) :
    d.drop (p + k) = (d.drop p).drop k := by
  rw [List.drop_drop, Nat.add_comm]

/-- Reading a 32-bit word that sits (as `w32 v`) at the cursor. -/
theorem read32_of_drop {d : List Nat} {p v : Nat} {rest : List Nat}
    (hv : v < two32) (h : d.drop p = w32 v ++ rest) :
    read32 d p = .ok (v, p + 4) ∧ d.drop (p + 4) = rest := by
  have hx : w32 v ≠ [] := by simp [w32]
  have hple : p ≤ d.length := le_length_of_drop_eq h hx
  have hlen : d.length - p = 4 + rest.length := by
    have := length_drop_of_drop_eq h hx
    simpa [w32] using this
  have hdrop4 : d.drop (p + 4) = rest := by
    rw [drop_add_view, h]
    simp [w32]
  refine ⟨?_, hdrop4⟩
  unfold read32
  rw [if_pos (by omega)]
  have e0 : byteAt d (p + 0) = v % 256 := by rw [byteAt_drop, h]; simp [w32, byteAt]
  have e1 : byteAt d (p + 1) = v / 256 % 256 := by rw [byteAt_drop, h]; simp [w32, byteAt]
  have e2 : byteAt d (p + 2) = v / 65536 % 256 := by rw [byteAt_drop, h]; simp [w32, byteAt]
  have e3 : byteAt d (p + 3) = v / 16777216 % 256 := by rw [byteAt_drop, h]; simp [w32, byteAt]
  rw [show byteAt d p = byteAt d (p + 0) by rw [Nat.add_zero], e0, e1, e2, e3,
    rd32_w32 v hv]

/-- Reading a byte run that sits at the cursor. -/
theorem readBytes_of_drop {d : List Nat} {p : Nat} {bs rest : List Nat}
    (h : d.drop p = bs ++ rest) (hne : bs ++ rest ≠ []) :
    readBytes d p bs.length = .ok (bs, p + bs.length) ∧ d.drop (p + bs.length) = rest := by
  have hple : p ≤ d.length := by
    by_contra hb
    push_neg at hb
    rw [List.drop_eq_nil_of_le (le_of_lt hb)] at h
    exact hne h.symm
  have hlen : d.length - p = bs.length + rest.length := by
    have := congrArg List.length h
    rw [List.length_drop, List.length_append] at this
    exact this
  have hdrop : d.drop (p + bs.length) = rest := by
    rw [drop_add_view, h, List.drop_left]
  refine ⟨?_, hdrop⟩
  unfold readBytes
  rw [if_pos (by omega), h, List.take_left]

theorem okBind {α β ε : Type} (a : α) (f : α → Except ε β) :
    (Except.ok a : Except ε α) >>= f = f a := rfl

theorem pureBind {α β ε : Type} (a : α) (f : α → Except ε β) :
    (pure a : Except ε α) >>= f = f a := rfl

theorem pureEqOk {α ε : Type} (a : α) : (pure a : Except ε α) = Except.ok a := rfl

/-- Reading a description-less chunk header whose two sentinel positions hold
arbitrary words `m1`, `m2`: the reader discards them, so the result does not
depend on them. -/
theorem readChunkHeader_anyMagic {d : List Nat} {p ty size m1 m2 : Nat} {rest : List Nat}
    (hm1 : m1 < two32) (hm2 : m2 < two32) (hty : ty < two32) (hsize : size < two32)
    (hal : p % 4 = 0)
    (h : d.drop p = w32 m1 ++ (w32 size ++ (w32 ty ++ (w32 0 ++ (w32 0 ++
      (w32 m2 ++ rest)))))) :
    readChunkHeader d p = .ok (⟨size, ty, 0, none⟩, p + 24) ∧ d.drop (p + 24) = rest := by
  obtain ⟨e0, h1⟩ := read32_of_drop hm1 h
  obtain ⟨e1, h2⟩ := read32_of_drop hsize h1
  obtain ⟨e2, h3⟩ := read32_of_drop hty h2
  obtain ⟨e3, h4⟩ := read32_of_drop (by decide) h3
  obtain ⟨e4, h5⟩ := read32_of_drop (by decide) h4
  obtain ⟨e5, h6⟩ := read32_of_drop hm2 h5
  have hpad : readPadding (p + 4 + 4 + 4 + 4 + 4) = p + 4 + 4 + 4 + 4 + 4 := by
    have hz : pad4 (p + 4 + 4 + 4 + 4 + 4) = 0 := by unfold pad4; omega
    unfold readPadding
    rw [hz]
  constructor
  · simp only [readChunkHeader, e0, okBind, e1, e2, e3, e4, ne_eq,
      not_true_eq_false, not_false_eq_true, if_neg, if_pos, hpad, e5, pureBind, pureEqOk]
  · rw [show p + 24 = p + 4 + 4 + 4 + 4 + 4 + 4 by omega]
    exact h6

/-- Reading a description-less chunk header laid out by the writer. -/
theorem readChunkHeader_none {d : List Nat} {p ty size : Nat} {rest : List Nat}
    (hty : ty < two32) (hsize : size < two32) (hal : p % 4 = 0)
    (h : d.drop p = hdrBytes ty none size ++ rest) :
    readChunkHeader d p = .ok (⟨size, ty, 0, none⟩, p + 24) ∧ d.drop (p + 24) = rest := by
  have h' : d.drop p = w32 CHUNK_BEGIN ++ (w32 size ++ (w32 ty ++ (w32 0 ++
      (w32 0 ++ (w32 CHUNK_SEPARATOR ++ rest))))) := by
    rw [h]; simp [hdrBytes, descTruthy]
  obtain ⟨e0, h1⟩ := read32_of_drop (by decide) h'
  obtain ⟨e1, h2⟩ := read32_of_drop hsize h1
  obtain ⟨e2, h3⟩ := read32_of_drop hty h2
  obtain ⟨e3, h4⟩ := read32_of_drop (by decide) h3
  obtain ⟨e4, h5⟩ := read32_of_drop (by decide) h4
  obtain ⟨e5, h6⟩ := read32_of_drop (by decide) h5
  have hpad : readPadding (p + 4 + 4 + 4 + 4 + 4) = p + 4 + 4 + 4 + 4 + 4 := by
    have hz : pad4 (p + 4 + 4 + 4 + 4 + 4) = 0 := by unfold pad4; omega
    unfold readPadding
    rw [hz]
  constructor
  · simp only [readChunkHeader, e0, okBind, e1, e2, e3, e4, ne_eq,
      not_true_eq_false, not_false_eq_true, if_neg, if_pos, hpad, e5, pureBind, pureEqOk]
  · rw [show p + 24 = p + 4 + 4 + 4 + 4 + 4 + 4 by omega]
    exact h6

/-- Reading a chunk header that carries a (nonempty) description. -/
theorem readChunkHeader_some {d : List Nat} {p ty size : Nat} {bs rest : List Nat}
    (hty : ty < two32) (hsize : size < two32) (hbs : bs ≠ [])
    (hbl : bs.length + 1 < two32) (hal : p % 4 = 0)
    (h : d.drop p = hdrBytes ty (some bs) size ++ rest) :
    readChunkHeader d p = .ok (⟨size, ty, 0, some bs⟩, p + hdrLen (some bs)) ∧
      d.drop (p + hdrLen (some bs)) = rest := by
  have htr : descTruthy (some bs) = true := by simp [descTruthy, hbs]
  have h' : d.drop p = w32 CHUNK_BEGIN ++ (w32 size ++ (w32 ty ++ (w32 0 ++
      (w32 1 ++ (w32 (bs.length + 1) ++ (bs ++ ([0] ++
        (List.replicate (pad4 (bs.length + 1)) 0 ++ (w32 CHUNK_SEPARATOR ++ rest))))))))) := by
    rw [h]; simp [hdrBytes, htr]
  obtain ⟨e0, h1⟩ := read32_of_drop (by decide) h'
  obtain ⟨e1, h2⟩ := read32_of_drop hsize h1
  obtain ⟨e2, h3⟩ := read32_of_drop hty h2
  obtain ⟨e3, h4⟩ := read32_of_drop (by decide) h3
  obtain ⟨e4, h5⟩ := read32_of_drop (by decide) h4
  obtain ⟨e5, h6⟩ := read32_of_drop hbl h5
  obtain ⟨e6, h7⟩ := readBytes_of_drop h6 (by simp)
  have h8 : d.drop (p + 4 + 4 + 4 + 4 + 4 + 4 + bs.length + 1) =
      List.replicate (pad4 (bs.length + 1)) 0 ++ (w32 CHUNK_SEPARATOR ++ rest) := by
    rw [show p + 4 + 4 + 4 + 4 + 4 + 4 + bs.length + 1 =
      p + 4 + 4 + 4 + 4 + 4 + 4 + bs.length + 1 from rfl]
    rw [show p + 4 + 4 + 4 + 4 + 4 + 4 + bs.length + 1 =
      (p + 4 + 4 + 4 + 4 + 4 + 4 + bs.length) + 1 from rfl, drop_add_view, h7]
    simp
  have h9 : d.drop (p + 4 + 4 + 4 + 4 + 4 + 4 + bs.length + 1 + pad4 (bs.length + 1)) =
      w32 CHUNK_SEPARATOR ++ rest := by
    rw [drop_add_view, h8, List.drop_append_eq_append_drop]
    simp
  obtain ⟨e7, h10⟩ := read32_of_drop (by decide) h9
  have hpadeq : readPadding (p + 4 + 4 + 4 + 4 + 4 + 4 + bs.length + 1) =
      p + 4 + 4 + 4 + 4 + 4 + 4 + bs.length + 1 + pad4 (bs.length + 1) := by
    unfold readPadding
    have : pad4 (p + 4 + 4 + 4 + 4 + 4 + 4 + bs.length + 1) = pad4 (bs.length + 1) := by
      unfold pad4; omega
    rw [this]
  have hfin : p + 4 + 4 + 4 + 4 + 4 + 4 + bs.length + 1 + pad4 (bs.length + 1) + 4 =
      p + hdrLen (some bs) := by
    simp only [hdrLen, htr, if_pos, Option.getD]
    omega
  constructor
  · simp only [readChunkHeader, e0, okBind, e1, e2, e3, e4, ne_eq, one_ne_zero,
      not_false_eq_true, if_pos, e5, e6, Nat.add_sub_cancel, hpadeq, e7, pureBind, pureEqOk]
    rw [hfin]
  · rw [← hfin]
    exact h10

/-! ## Writer machine versus functional layout -/

theorem getData_eq_patchList (st : WState) : getData st = patchList st.closed st.buf := rfl

theorem wRun_append (a b : List WCmd) (st : WState) :
    wRun (a ++ b) st = wRun b (wRun a st) := by
  unfold wRun
  exact List.foldl_append wStep st a b

theorem wRun_cons (c : WCmd) (cs : List WCmd) (st : WState) :
    wRun (c :: cs) st = wRun cs (wStep st c) := rfl

theorem hdrBytes_length (ty size : Nat) (desc : Option (List Nat)) :
    (hdrBytes ty desc size).length = hdrLen desc := by
  unfold hdrBytes hdrLen
  cases h : descTruthy desc <;> simp [w32]
  omega

theorem hdrLen_mod4 (desc : Option (List Nat)) : hdrLen desc % 4 = 0 := by
  unfold hdrLen
  cases h : descTruthy desc <;> simp
  unfold pad4
  omega

theorem enc_chunk_length (ty : Nat) (desc : Option (List Nat)) (body : List Prog) :
    (Prog.enc (.chunk ty desc body)).length =
      hdrLen desc + (Prog.encList body).length + pad4 (Prog.encList body).length + 4 := by
  simp [Prog.enc, hdrBytes_length, w32]
  omega

mutual
theorem raw_length (p : Prog) : (Prog.raw p).length = (Prog.enc p).length := by
  cases p with
  | w32 v => rfl
  | bytes bs => rfl
  | chunk ty desc body =>
    simp [Prog.raw, Prog.enc, rawList_length body, hdrBytes_length]

theorem rawList_length (ps : List Prog) :
    (Prog.rawList ps).length = (Prog.encList ps).length := by
  cases ps with
  | nil => rfl
  | cons p ps =>
    simp [Prog.rawList, Prog.encList, raw_length p, rawList_length ps]
end

/-- Effect of `writeChunkOpen` from an aligned position. -/
theorem writeChunkOpen_eq (st : WState) (ty : Nat) (desc : Option (List Nat))
    (h : st.buf.length % 4 = 0) :
    writeChunkOpen st ty desc =
      ⟨st.buf ++ hdrBytes ty desc 0, (ty, st.buf.length) :: st.stack, st.closed⟩ := by
  have hpads : ∀ k : Nat, pad4 (st.buf.length + k) = pad4 k := fun k => pad4_add_left _ k h
  unfold writeChunkOpen wWrite32 wWriteBytes wWritePadding hdrBytes
  cases htr : descTruthy desc
  · simp only [htr, Bool.false_eq_true, if_false]
    simp only [List.length_append, w32_length]
    rw [show st.buf.length + 4 + 4 + 4 + 4 + 4 = st.buf.length + 20 by omega, hpads 20]
    simp [show pad4 20 = 0 from rfl, List.append_assoc]
  · simp only [htr, if_true]
    simp only [List.length_append, w32_length, List.length_cons, List.length_nil]
    rw [show st.buf.length + 4 + 4 + 4 + 4 + 4 + 4 + (desc.getD []).length + (0 + 1) =
      st.buf.length + (24 + ((desc.getD []).length + 1)) by omega, hpads,
      pad4_add_left 24 _ (by norm_num)]
    simp [List.append_assoc]

/-- Effect of `writeChunkClose` when a chunk is open. -/
theorem writeChunkClose_eq (st : WState) (ty s : Nat) (stk : List (Nat × Nat))
    (h : st.stack = (ty, s) :: stk) :
    writeChunkClose st =
      ⟨st.buf ++ List.replicate (pad4 st.buf.length) 0 ++ w32 CHUNK_END, stk,
        st.closed ++ [(ty, s, st.buf.length + pad4 st.buf.length + 4 - s)]⟩ := by
  unfold writeChunkClose wWritePadding wWrite32
  rw [h]
  simp [w32]
  omega

mutual
/-- Running the writer over a balanced program appends the raw bytes (size
fields still zero), leaves the stack unchanged, and records exactly the
`closedAt` entries. -/
theorem wRun_cmds (p : Prog) (st : WState) (h : Prog.alignedAt p st.buf.length = true) :
    wRun (Prog.cmds p) st =
      ⟨st.buf ++ Prog.raw p, st.stack, st.closed ++ Prog.closedAt p st.buf.length⟩ := by
  cases p with
  | w32 v => simp [Prog.cmds, Prog.raw, Prog.closedAt, wRun, wStep, wWrite32]
  | bytes bs => simp [Prog.cmds, Prog.raw, Prog.closedAt, wRun, wStep, wWriteBytes]
  | chunk ty desc body =>
    rw [Prog.alignedAt, Bool.and_eq_true, beq_iff_eq] at h
    obtain ⟨hb, hrest⟩ := h
    have hlen1 : (st.buf ++ hdrBytes ty desc 0).length = st.buf.length + hdrLen desc := by
      simp [List.length_append, hdrBytes_length]
    have hal1 : Prog.alignedAtList body ((st.buf ++ hdrBytes ty desc 0).length) = true := by
      rw [hlen1]
      exact hrest
    simp only [Prog.cmds]
    show wRun (Prog.cmdsList body ++ [WCmd.cclose]) (writeChunkOpen st ty desc) = _
    rw [writeChunkOpen_eq st ty desc hb, wRun_append,
      wRun_cmdsList body ⟨st.buf ++ hdrBytes ty desc 0,
        (ty, st.buf.length) :: st.stack, st.closed⟩ hal1]
    simp only [wRun, List.foldl, wStep]
    rw [writeChunkClose_eq _ ty st.buf.length st.stack rfl]
    have hL : (Prog.rawList body).length = (Prog.encList body).length := rawList_length body
    dsimp only
    have hlen2 : (st.buf ++ hdrBytes ty desc 0 ++ Prog.rawList body).length =
        st.buf.length + (hdrLen desc + (Prog.rawList body).length) := by
      simp [List.length_append, hdrBytes_length]
    rw [hlen2]
    have hpad2 : pad4 (st.buf.length + (hdrLen desc + (Prog.rawList body).length)) =
        pad4 (Prog.rawList body).length := by
      have := hdrLen_mod4 desc
      unfold pad4
      omega
    rw [hpad2]
    have hsz2 : st.buf.length + (hdrLen desc + (Prog.rawList body).length) +
        pad4 (Prog.rawList body).length + 4 - st.buf.length =
        (Prog.enc (.chunk ty desc body)).length := by
      rw [enc_chunk_length, hL]
      omega
    rw [hsz2, hlen1]
    simp [Prog.raw, Prog.closedAt, List.append_assoc, hL]

theorem wRun_cmdsList (ps : List Prog) (st : WState)
    (h : Prog.alignedAtList ps st.buf.length = true) :
    wRun (Prog.cmdsList ps) st =
      ⟨st.buf ++ Prog.rawList ps, st.stack, st.closed ++ Prog.closedAtList ps st.buf.length⟩ := by
  cases ps with
  | nil => simp [Prog.cmdsList, Prog.rawList, Prog.closedAtList, wRun]
  | cons p ps =>
    rw [Prog.alignedAtList, Bool.and_eq_true] at h
    obtain ⟨hp, hps⟩ := h
    have h1 := wRun_cmds p st hp
    have hal : Prog.alignedAtList ps ((st.buf ++ Prog.raw p).length) = true := by
      rw [List.length_append, raw_length p]
      exact hps
    simp only [Prog.cmdsList]
    rw [wRun_append, h1, wRun_cmdsList ps _ hal]
    simp [Prog.rawList, Prog.closedAtList, List.append_assoc, raw_length p]
end

/-! ## The size back-patch turns raw bytes into the final layout -/

theorem patchList_append (a b : List (Nat × Nat × Nat)) (buf : List Nat) :
    patchList (a ++ b) buf = patchList b (patchList a buf) := by
  unfold patchList
  exact List.foldl_append _ _ a b

theorem setBytes_at (X old Y bs : List Nat) (h : old.length = bs.length) :
    setBytes (X ++ old ++ Y) X.length bs = X ++ bs ++ Y := by
  unfold setBytes
  have ht : (X ++ old ++ Y).take X.length = X := by
    rw [show X ++ old ++ Y = X ++ (old ++ Y) by simp, List.take_left]
  have hd : (X ++ old ++ Y).drop (X.length + bs.length) = Y := by
    rw [show X ++ old ++ Y = (X ++ old) ++ Y by simp, ← h,
      show X.length + old.length = (X ++ old).length by simp, List.drop_left]
  rw [ht, hd]

mutual
/-- Applying a program's recorded patches to its raw bytes, in place inside
any frame, yields the final (size-carrying) bytes. -/
theorem patch_raw (p : Prog) (X Y : List Nat) :
    patchList (Prog.closedAt p X.length) (X ++ Prog.raw p ++ Y) =
      X ++ Prog.enc p ++ Y := by
  cases p with
  | w32 v => simp [Prog.closedAt, patchList, Prog.raw, Prog.enc]
  | bytes bs => simp [Prog.closedAt, patchList, Prog.raw, Prog.enc]
  | chunk ty desc body =>
    have hL : (Prog.rawList body).length = (Prog.encList body).length := rawList_length body
    simp only [Prog.closedAt, Prog.raw]
    rw [patchList_append]
    have hstep1 : patchList (Prog.closedAtList body (X.length + hdrLen desc))
        (X ++ (hdrBytes ty desc 0 ++ Prog.rawList body ++
          List.replicate (pad4 (Prog.rawList body).length) 0 ++ w32 CHUNK_END) ++ Y) =
        (X ++ hdrBytes ty desc 0) ++ Prog.encList body ++
          (List.replicate (pad4 (Prog.rawList body).length) 0 ++ w32 CHUNK_END ++ Y) := by
      rw [show X ++ (hdrBytes ty desc 0 ++ Prog.rawList body ++
          List.replicate (pad4 (Prog.rawList body).length) 0 ++ w32 CHUNK_END) ++ Y =
        (X ++ hdrBytes ty desc 0) ++ Prog.rawList body ++
          (List.replicate (pad4 (Prog.rawList body).length) 0 ++ w32 CHUNK_END ++ Y) by simp,
        show X.length + hdrLen desc = (X ++ hdrBytes ty desc 0).length by
          simp [hdrBytes_length]]
      exact patch_rawList body (X ++ hdrBytes ty desc 0) _
    rw [hstep1]
    unfold patchList
    simp only [List.foldl]
    have hhdr : ∀ z : Nat, (X ++ hdrBytes ty desc 0) ++ Prog.encList body ++
        (List.replicate (pad4 (Prog.rawList body).length) 0 ++ w32 CHUNK_END ++ Y) =
        (X ++ w32 CHUNK_BEGIN) ++ w32 0 ++ (w32 ty ++ w32 0 ++
          (if descTruthy desc then
            w32 1 ++ w32 ((desc.getD []).length + 1) ++ desc.getD [] ++ [0] ++
              List.replicate (pad4 ((desc.getD []).length + 1)) 0
          else w32 0) ++ w32 CHUNK_SEPARATOR ++ (Prog.encList body ++
          (List.replicate (pad4 (Prog.rawList body).length) 0 ++ w32 CHUNK_END ++ Y))) := by
      intro z
      unfold hdrBytes
      cases descTruthy desc <;> simp
    rw [hhdr 0, show X.length + 4 = (X ++ w32 CHUNK_BEGIN).length by simp [w32],
      setBytes_at _ (w32 0) _ _ (by simp [w32])]
    rw [enc_chunk_length ty desc body]
    simp only [Prog.enc]
    unfold hdrBytes
    cases descTruthy desc <;> simp [hL]

theorem patch_rawList (ps : List Prog) (X Y : List Nat) :
    patchList (Prog.closedAtList ps X.length) (X ++ Prog.rawList ps ++ Y) =
      X ++ Prog.encList ps ++ Y := by
  cases ps with
  | nil => simp [Prog.closedAtList, patchList, Prog.rawList, Prog.encList]
  | cons p ps =>
    simp only [Prog.closedAtList, Prog.rawList, Prog.encList]
    rw [patchList_append]
    rw [show X ++ (Prog.raw p ++ Prog.rawList ps) ++ Y =
      X ++ Prog.raw p ++ (Prog.rawList ps ++ Y) by simp]
    rw [patch_raw p X (Prog.rawList ps ++ Y)]
    rw [show X ++ Prog.enc p ++ (Prog.rawList ps ++ Y) =
      (X ++ Prog.enc p) ++ Prog.rawList ps ++ Y by simp,
      show X.length + (Prog.enc p).length = (X ++ Prog.enc p).length by simp]
    rw [patch_rawList ps (X ++ Prog.enc p) Y]
    simp
end

/-- `getData` after running a balanced program from the initial state produces
exactly the functional layout (sizes patched in). -/
theorem getData_run (ps : List Prog) (h : Prog.alignedAtList ps 0 = true) :
    getData (wRun (Prog.cmdsList ps) WState.initial) = Prog.encList ps := by
  rw [getData_eq_patchList, wRun_cmdsList ps WState.initial (by simpa [WState.initial] using h)]
  have := patch_rawList ps [] []
  simpa [WState.initial] using this

/-! ## Every recorded chunk is a well-formed subtree of the final bytes -/

theorem hdrLen_ge (desc : Option (List Nat)) : 24 ≤ hdrLen desc := by
  unfold hdrLen
  cases descTruthy desc <;> simp

mutual
theorem closedAt_subtree (p : Prog) (X Y : List Nat) {e : Nat × Nat × Nat}
    (he : e ∈ Prog.closedAt p X.length) :
    ∃ (ty : Nat) (desc : Option (List Nat)) (body : List Prog) (Xf Yf : List Nat),
      X ++ Prog.enc p ++ Y = Xf ++ Prog.enc (.chunk ty desc body) ++ Yf ∧
      e = (ty, Xf.length, (Prog.enc (.chunk ty desc body)).length) := by
  cases p with
  | w32 v => simp [Prog.closedAt] at he
  | bytes bs => simp [Prog.closedAt] at he
  | chunk ty desc body =>
    simp only [Prog.closedAt] at he
    rw [List.mem_append] at he
    cases he with
    | inl hin =>
      have hre : X.length + hdrLen desc =
          (X ++ hdrBytes ty desc (hdrLen desc + (Prog.encList body).length +
            pad4 (Prog.encList body).length + 4)).length := by
        simp [hdrBytes_length]
      rw [hre] at hin
      obtain ⟨ty', d', b', Xf, Yf, heq, hee⟩ := closedAtList_subtree body _
        (List.replicate (pad4 (Prog.encList body).length) 0 ++ w32 CHUNK_END ++ Y) hin
      refine ⟨ty', d', b', Xf, Yf, ?_, hee⟩
      rw [← heq]
      simp [Prog.enc]
    | inr hself =>
      simp only [List.mem_singleton] at hself
      exact ⟨ty, desc, body, X, Y, rfl, hself⟩

theorem closedAtList_subtree (ps : List Prog) (X Y : List Nat) {e : Nat × Nat × Nat}
    (he : e ∈ Prog.closedAtList ps X.length) :
    ∃ (ty : Nat) (desc : Option (List Nat)) (body : List Prog) (Xf Yf : List Nat),
      X ++ Prog.encList ps ++ Y = Xf ++ Prog.enc (.chunk ty desc body) ++ Yf ∧
      e = (ty, Xf.length, (Prog.enc (.chunk ty desc body)).length) := by
  cases ps with
  | nil => simp [Prog.closedAtList] at he
  | cons p ps =>
    simp only [Prog.closedAtList] at he
    rw [List.mem_append] at he
    cases he with
    | inl hin =>
      obtain ⟨ty', d', b', Xf, Yf, heq, hee⟩ := closedAt_subtree p X (Prog.encList ps ++ Y) hin
      refine ⟨ty', d', b', Xf, Yf, ?_, hee⟩
      rw [← heq]
      simp [Prog.encList]
    | inr hin =>
      rw [show X.length + (Prog.enc p).length = (X ++ Prog.enc p).length by simp] at hin
      obtain ⟨ty', d', b', Xf, Yf, heq, hee⟩ := closedAtList_subtree ps (X ++ Prog.enc p) Y hin
      refine ⟨ty', d', b', Xf, Yf, ?_, hee⟩
      rw [← heq]
      simp [Prog.encList]
end

/-- The final bytes of an encoded chunk: begin magic, then its own total
length as the size word, then the rest of the header, body, pad, end magic. -/
theorem enc_chunk_decomp (ty : Nat) (desc : Option (List Nat)) (body : List Prog) :
    Prog.enc (.chunk ty desc body) =
      w32 CHUNK_BEGIN ++ w32 ((Prog.enc (.chunk ty desc body)).length) ++
      ((hdrBytes ty desc 0).drop 8 ++ Prog.encList body ++
        List.replicate (pad4 (Prog.encList body).length) 0 ++ w32 CHUNK_END) := by
  rw [enc_chunk_length]
  conv_lhs => simp only [Prog.enc]
  unfold hdrBytes
  cases descTruthy desc <;> simp [w32]

theorem take4_w32 (v : Nat) (R : List Nat) : (w32 v ++ R).take 4 = w32 v := by
  rw [← w32_length v, List.take_left]

/-- C5: in every byte stream produced by the writer from a balanced program,
after `getData`'s deferred back-patch every recorded chunk (nested ones
included) has its begin-magic at its start offset, the (unchecked) end-magic
word ending exactly `size` bytes after the start, and the 32-bit size field —
the word after the begin-magic — reading back as exactly that `size`, i.e.
the byte distance from begin-magic through end-magic inclusive. -/
theorem C5_size_field_backpatched (ps : List Prog)
    (hal : Prog.alignedAtList ps 0 = true)
    (hfit : (Prog.encList ps).length < two32)
    (e : Nat × Nat × Nat) (he : e ∈ (wRun (Prog.cmdsList ps) WState.initial).closed) :
    ((getData (wRun (Prog.cmdsList ps) WState.initial)).drop e.2.1).take 4 = w32 CHUNK_BEGIN ∧
    read32 (getData (wRun (Prog.cmdsList ps) WState.initial)) (e.2.1 + 4) =
      .ok (e.2.2, e.2.1 + 4 + 4) ∧
    ((getData (wRun (Prog.cmdsList ps) WState.initial)).drop (e.2.1 + e.2.2 - 4)).take 4 =
      w32 CHUNK_END ∧
    28 ≤ e.2.2 := by
  have hrun := wRun_cmdsList ps WState.initial (by simpa [WState.initial] using hal)
  have hout : getData (wRun (Prog.cmdsList ps) WState.initial) = Prog.encList ps :=
    getData_run ps hal
  have he' : e ∈ Prog.closedAtList ps (List.length ([] : List Nat)) := by
    rw [hrun] at he
    simpa [WState.initial] using he
  obtain ⟨ty, desc, body, Xf, Yf, heq, hee⟩ := closedAtList_subtree ps [] [] he'
  have hout2 : getData (wRun (Prog.cmdsList ps) WState.initial) =
      Xf ++ Prog.enc (.chunk ty desc body) ++ Yf := by
    rw [hout]
    simpa using heq
  have hlen : (Prog.enc (.chunk ty desc body)).length < two32 := by
    have h1 := congrArg List.length heq
    simp at h1
    omega
  have hsz28 : 28 ≤ (Prog.enc (.chunk ty desc body)).length := by
    rw [enc_chunk_length]
    have := hdrLen_ge desc
    omega
  have hdropXf : (getData (wRun (Prog.cmdsList ps) WState.initial)).drop Xf.length =
      Prog.enc (.chunk ty desc body) ++ Yf := by
    rw [hout2, show Xf ++ Prog.enc (.chunk ty desc body) ++ Yf =
      Xf ++ (Prog.enc (.chunk ty desc body) ++ Yf) by simp, List.drop_left]
  subst hee
  refine ⟨?_, ?_, ?_, hsz28⟩
  · rw [hdropXf, enc_chunk_decomp]
    simp only [List.append_assoc]
    exact take4_w32 _ _
  · have hview : (getData (wRun (Prog.cmdsList ps) WState.initial)).drop (Xf.length + 4) =
        w32 ((Prog.enc (.chunk ty desc body)).length) ++
        (((hdrBytes ty desc 0).drop 8 ++ Prog.encList body ++
          List.replicate (pad4 (Prog.encList body).length) 0 ++ w32 CHUNK_END) ++ Yf) := by
      rw [drop_add_view, hdropXf]
      conv_lhs => rw [enc_chunk_decomp]
      simp [w32]
    exact (read32_of_drop hlen hview).1
  · have hpre : (Prog.enc (.chunk ty desc body)) =
        (hdrBytes ty desc ((Prog.enc (.chunk ty desc body)).length) ++ Prog.encList body ++
          List.replicate (pad4 (Prog.encList body).length) 0) ++ w32 CHUNK_END := by
      rw [enc_chunk_length]
      conv_lhs => simp only [Prog.enc]
    have hplen : (hdrBytes ty desc ((Prog.enc (.chunk ty desc body)).length) ++
        Prog.encList body ++ List.replicate (pad4 (Prog.encList body).length) 0).length =
        (Prog.enc (.chunk ty desc body)).length - 4 := by
      conv_rhs => rw [hpre]
      simp [w32]
      omega
    have harith2 : Xf.length + (Prog.enc (.chunk ty desc body)).length - 4 =
        Xf.length + (hdrLen desc + ((Prog.encList body).length +
          pad4 (Prog.encList body).length)) := by
      rw [enc_chunk_length]
      omega
    have hPlen : (hdrBytes ty desc ((Prog.enc (.chunk ty desc body)).length) ++
        Prog.encList body ++ List.replicate (pad4 (Prog.encList body).length) 0).length =
        hdrLen desc + ((Prog.encList body).length + pad4 (Prog.encList body).length) := by
      simp [hdrBytes_length]
    rw [harith2, drop_add_view, hdropXf]
    conv_lhs => rw [hpre]
    rw [show ((hdrBytes ty desc ((Prog.enc (.chunk ty desc body)).length) ++
        Prog.encList body ++ List.replicate (pad4 (Prog.encList body).length) 0) ++
        w32 CHUNK_END) ++ Yf =
      (hdrBytes ty desc ((Prog.enc (.chunk ty desc body)).length) ++ Prog.encList body ++
        List.replicate (pad4 (Prog.encList body).length) 0) ++ (w32 CHUNK_END ++ Yf) from by
        simp]
    rw [← hPlen, List.drop_left]
    exact take4_w32 _ _

/-- Witness for C5 at a concrete one-chunk program (a `DATABASE_FLAGS` chunk
holding 274): its recorded entry is `(2, 0, 32)` and the back-patched stream
carries begin-magic, size 32 and end-magic at the stated offsets. -/
theorem C5_size_field_backpatched_witness :
    ((getData (wRun (Prog.cmdsList [Prog.chunk DATABASE_FLAGS none [Prog.w32 274]])
        WState.initial)).drop 0).take 4 = w32 CHUNK_BEGIN ∧
    read32 (getData (wRun (Prog.cmdsList [Prog.chunk DATABASE_FLAGS none [Prog.w32 274]])
        WState.initial)) (0 + 4) = .ok (32, 0 + 4 + 4) ∧
    ((getData (wRun (Prog.cmdsList [Prog.chunk DATABASE_FLAGS none [Prog.w32 274]])
        WState.initial)).drop (0 + 32 - 4)).take 4 = w32 CHUNK_END ∧
    28 ≤ 32 :=
  C5_size_field_backpatched [Prog.chunk DATABASE_FLAGS none [Prog.w32 274]]
    (by decide) (by decide) (2, 0, 32) (by decide)

/-! ## C4 — the reader never validates the framing sentinels -/

/-- C4 counterexample: a complete `ROW_COUNT` chunk whose begin-magic is 1,
separator-magic is 2 and end-magic is 3 — all three wrong — parses
successfully (no `BadMagic`, no failure of any kind). -/
theorem C4_counterexample :
    ((1 : Nat) ≠ CHUNK_BEGIN ∧ (2 : Nat) ≠ CHUNK_SEPARATOR ∧ (3 : Nat) ≠ CHUNK_END) ∧
    readChunk 1 (w32 1 ++ w32 32 ++ w32 ROW_COUNT ++ w32 0 ++ w32 0 ++ w32 2 ++
      w32 7 ++ w32 3) 0 = .ok (⟨ROW_COUNT, CVal.num 7⟩, 32) :=
  ⟨by decide, rfl⟩

/-- C4 amended: the reader reads the three sentinel positions and discards
the words unchecked — parsing succeeds with the same result for arbitrary
values `m1`, `m2`, `m3` at the begin-, separator- and end-magic positions;
no `BadMagic` failure exists anywhere in the reader. -/
theorem C4_sentinels_never_checked (m1 m2 m3 v : Nat)
    (hm1 : m1 < two32) (hm2 : m2 < two32) (hm3 : m3 < two32) (hv : v < two32) :
    readChunk 1 (w32 m1 ++ w32 32 ++ w32 ROW_COUNT ++ w32 0 ++ w32 0 ++ w32 m2 ++
      w32 v ++ w32 m3) 0 = .ok (⟨ROW_COUNT, CVal.num v⟩, 32) := by
  have h0 : (w32 m1 ++ w32 32 ++ w32 ROW_COUNT ++ w32 0 ++ w32 0 ++ w32 m2 ++
      w32 v ++ w32 m3).drop 0 = w32 m1 ++ (w32 32 ++ (w32 ROW_COUNT ++ (w32 0 ++ (w32 0 ++
      (w32 m2 ++ (w32 v ++ (w32 m3 ++ ([] : List Nat)))))))) := by simp
  obtain ⟨hh, hr⟩ := readChunkHeader_anyMagic hm1 hm2 (by decide) (by decide) (by decide) h0
  obtain ⟨ev, hr2⟩ := read32_of_drop hv hr
  obtain ⟨em, _⟩ := read32_of_drop hm3 hr2
  norm_num [List.append_assoc, ROW_COUNT] at hh ev em
  show readChunk (0 + 1) _ 0 = _
  simp [readChunk, hh, ev, em, okBind, pureBind, pureEqOk, readPadding, pad4, ROW_COUNT]

/-- Witness for C4's amended theorem at the sentinel values 5, 6, 7. -/
theorem C4_sentinels_never_checked_witness :
    readChunk 1 (w32 5 ++ w32 32 ++ w32 ROW_COUNT ++ w32 0 ++ w32 0 ++ w32 6 ++
      w32 8 ++ w32 7) 0 = .ok (⟨ROW_COUNT, CVal.num 8⟩, 32) :=
  C4_sentinels_never_checked 5 6 7 8 (by decide) (by decide) (by decide) (by decide)

/-! ## C10 — what happens to a container's tail once < 20 bytes remain -/

/-- C10 counterexample: a `WRAPPER` chunk declaring 40 bytes whose body holds
a 16-byte trailing region (three junk words and the end-magic).  The reader
stops (16 < 20), consumes only the padding and one 4-byte word, and returns
at position 28, *not* at the declared end 40: the trailing region is not
skipped. -/
theorem C10_counterexample :
    readChunk 2 (w32 CHUNK_BEGIN ++ w32 40 ++ w32 WRAPPER ++ w32 0 ++ w32 0 ++
      w32 CHUNK_SEPARATOR ++ w32 1 ++ w32 2 ++ w32 3 ++ w32 CHUNK_END) 0 =
      .ok (⟨WRAPPER, CVal.container ⟨40, WRAPPER, 0, none⟩ []⟩, 28) ∧
    (28 : Nat) ≠ 0 + 40 :=
  ⟨rfl, by decide⟩

/-- C10 amended: the decoder reads a child chunk only while at least 20 bytes
remain before the container's declared end (first clause, for every state of
the child loop); once fewer than 20 bytes remain it stops, consumes only the
alignment padding and one further unchecked 4-byte word (the end-magic slot),
and returns without error — longer trailing regions are left unconsumed
rather than skipped, as the 16-byte-tail family of containers shows (second
clause: the final position is 28, eight bytes short of the declared end 40,
whatever the content of the junk words). -/
theorem C10_container_tail (fuel p endPos : Nat) (d : List Nat)
    (acc : List (Nat × CVal)) (hstop : endPos < p + 20) (j0 j1 j2 : Nat)
    (hj0 : j0 < two32) (hj1 : j1 < two32) (hj2 : j2 < two32) :
    readChildren (fuel + 1) d p endPos acc = .ok (acc, p) ∧
    readChunk 2 (w32 CHUNK_BEGIN ++ w32 40 ++ w32 WRAPPER ++ w32 0 ++ w32 0 ++
      w32 CHUNK_SEPARATOR ++ w32 j0 ++ w32 j1 ++ w32 j2 ++ w32 CHUNK_END) 0 =
      .ok (⟨WRAPPER, CVal.container ⟨40, WRAPPER, 0, none⟩ []⟩, 28) := by
  constructor
  · rw [readChildren, if_neg (by omega)]
  · have h0 : (w32 CHUNK_BEGIN ++ w32 40 ++ w32 WRAPPER ++ w32 0 ++ w32 0 ++
        w32 CHUNK_SEPARATOR ++ w32 j0 ++ w32 j1 ++ w32 j2 ++ w32 CHUNK_END).drop 0 =
        w32 CHUNK_BEGIN ++ (w32 40 ++ (w32 WRAPPER ++ (w32 0 ++ (w32 0 ++
        (w32 CHUNK_SEPARATOR ++ (w32 j0 ++ (w32 j1 ++ (w32 j2 ++
          (w32 CHUNK_END ++ ([] : List Nat)))))))))) := by simp
    obtain ⟨hh, hr⟩ := readChunkHeader_anyMagic (by decide) (by decide) (by decide)
      (by decide) (by decide) h0
    obtain ⟨ej, _⟩ := read32_of_drop hj0 hr
    norm_num [List.append_assoc, WRAPPER] at hh ej
    show readChunk (1 + 1) _ 0 = _
    simp [readChunk, readChildren, hh, ej, okBind, pureBind, pureEqOk, readPadding, pad4,
      WRAPPER, ROW_COUNT, TABLE_ID, TABLE_FLAGS, DATABASE_FLAGS, COLUMN_INDEX,
      COLUMN_DATA_TYPE, COLUMN_VALUES, COLUMN_BLOB_DATA, DATABASE_TABLES,
      COLUMN_DEFINITIONS, TABLE, COLUMN, childSet]

/-- Witness for C10's amended theorem, stop clause at `(fuel, p, endPos) =
(0, 24, 40)` and junk words 1, 2, 3. -/
theorem C10_container_tail_witness :
    readChildren (0 + 1) [] 24 40 [] = .ok ([], 24) ∧
    readChunk 2 (w32 CHUNK_BEGIN ++ w32 40 ++ w32 WRAPPER ++ w32 0 ++ w32 0 ++
      w32 CHUNK_SEPARATOR ++ w32 1 ++ w32 2 ++ w32 3 ++ w32 CHUNK_END) 0 =
      .ok (⟨WRAPPER, CVal.container ⟨40, WRAPPER, 0, none⟩ []⟩, 28) :=
  C10_container_tail 0 24 40 [] [] (by decide) 1 2 3 (by decide) (by decide) (by decide)

/-! ## C2 — the metadata codec is a bijection on its domain -/

/-- C2: for every `N < 2^32`, re-packing the unpacked triple gives back `N`,
and for every legal triple (`column_index < 256`, `data_type < 16`)
unpacking the packed integer gives back the triple. -/
theorem C2_metadata_codec_bijection :
    (∀ n : Nat, n < two32 →
      packMeta (unpackTableId n) (unpackColumnIndex n) (unpackDataType n) = n) ∧
    (∀ t c d : Nat, c < 256 → d < 16 →
      unpackTableId (packMeta t c d) = t ∧
      unpackColumnIndex (packMeta t c d) = c ∧
      unpackDataType (packMeta t c d) = d) := by
  constructor
  · intro n _
    unfold packMeta unpackTableId unpackColumnIndex unpackDataType
    omega
  · intro t c d hc hd
    unfold packMeta unpackTableId unpackColumnIndex unpackDataType
    refine ⟨?_, ?_, ?_⟩ <;> omega

/-- Witness for C2 at the spec's own example `N = 12288 = packMeta 3 0 0`. -/
theorem C2_metadata_codec_bijection_witness :
    packMeta (unpackTableId 12288) (unpackColumnIndex 12288) (unpackDataType 12288) = 12288 ∧
    (unpackTableId (packMeta 3 0 0) = 3 ∧ unpackColumnIndex (packMeta 3 0 0) = 0 ∧
      unpackDataType (packMeta 3 0 0) = 0) :=
  ⟨C2_metadata_codec_bijection.1 12288 (by decide),
   C2_metadata_codec_bijection.2 3 0 0 (by decide) (by decide)⟩

/-! ## C9 — what the sentinel annotation 274 actually unpacks to -/

/-- C9 counterexample: under the inversion formulas, 274 does **not** decode
to the triple `(table_id, column_index, data_type) = (1, 1, 2)` claimed by
the spec (`pack 1 1 2` would be 4114, not 274). -/
theorem C9_counterexample :
    ¬ (unpackTableId 274 = 1 ∧ unpackColumnIndex 274 = 1 ∧ unpackDataType 274 = 2) := by
  decide

/-- C9 amended: the sentinel annotation 274 decodes, under the inversion
formulas, to `table_id = 0`, `column_index = 17`, `data_type = 2` (it equals
`(0 * 256 + 17) * 16 + 2`; the "table_id = 1, column_index = 1" reading in the
source comments corresponds to a different, 16-based grouping). -/
theorem C9_sentinel_annotation_unpack :
    unpackTableId 274 = 0 ∧ unpackColumnIndex 274 = 17 ∧ unpackDataType 274 = 2 ∧
    packMeta 0 17 2 = 274 := by
  decide

/-! ## C3 — which data-type enumerants the decoder accepts -/

/-- C3: the decoder's `convertColumnData` switch knows only the five
enumerants 0, 1, 2, 10, 11; the documented types 3 (boolean), 4 (byte) and
5 (short) hit the default branch and throw `Unknown data type`, contradicting
the repository's own `CDB_FORMAT.md`, which documents all eight with explicit
read conversions.  Evaluated at a one-row column of each rejected type. -/
theorem C3_boolean_byte_short_rejected :
    convertColumnBody 3 (some (.words [1])) [0, 0, 0, 0] = .error "Unknown data type: 3" ∧
    convertColumnBody 4 (some (.words [1])) [0, 0, 0, 0] = .error "Unknown data type: 4" ∧
    convertColumnBody 5 (some (.words [1])) [0, 0, 0, 0] = .error "Unknown data type: 5" ∧
    (∀ dt : Nat, dt ∈ ([0, 1, 2, 10, 11] : List Nat) →
      ∀ msg, convertColumnBody dt (some (.words [])) [0, 0, 0, 0] ≠ .error msg) := by
  refine ⟨rfl, rfl, rfl, ?_⟩
  intro dt hdt msg
  fin_cases hdt <;> exact fun h => Except.noConfusion h

/-- Witness for C3's accepted-enumerant clause at `dt = 0`. -/
theorem C3_boolean_byte_short_rejected_witness :
    ∀ msg, convertColumnBody 0 (some (.words [])) [0, 0, 0, 0] ≠ .error msg :=
  C3_boolean_byte_short_rejected.2.2.2 0 (by decide)

/-! ## Inversion helpers for `Except` computations -/

theorem bindOk {α β : Type} {x : Except String α} {f : α → Except String β} {b : β}
    (h : (x >>= f) = .ok b) : ∃ a, x = .ok a ∧ f a = .ok b := by
  cases x with
  | ok a => exact ⟨a, rfl, h⟩
  | error e => exact absurd h (fun hc => Except.noConfusion hc)

theorem mapErr {α β : Type} {x : Except String α} {f : α → β} {e : String}
    (h : x.map f = .error e) : x = .error e := by
  cases x with
  | ok a => exact absurd h (fun hc => Except.noConfusion hc)
  | error e' => cases h; rfl

theorem bindErr {α β : Type} {x : Except String α} {f : α → Except String β} {e : String}
    (h : (x >>= f) = .error e) : x = .error e ∨ ∃ a, x = .ok a ∧ f a = .error e := by
  cases x with
  | ok a => exact .inr ⟨a, rfl, h⟩
  | error e' => cases h; exact .inl rfl

/-! ## Structure of the emitted table chunk programs -/

theorem progTableId_tableProgOf (n : List Nat) (i : Nat)
    (pairs : List (List Nat × ColInfo)) (rows : List (List Cell)) :
    progTableId (tableProgOf n i pairs rows) = i := rfl

theorem isTableChunk_tableProgOf (n : List Nat) (i : Nat)
    (pairs : List (List Nat × ColInfo)) (rows : List (List Cell)) :
    isTableChunk (tableProgOf n i pairs rows) = true := rfl

theorem progTableFlags_tableProgOf (n : List Nat) (i : Nat)
    (pairs : List (List Nat × ColInfo)) (rows : List (List Cell)) :
    progTableFlags (tableProgOf n i pairs rows) = (tableFlagsById i).getD 0 := rfl

theorem filterMap_colNames (rows : List (List Cell)) :
    ∀ (pairs : List (List Nat × ColInfo)) (n : Nat),
    ((List.enumFrom n pairs).map (fun jp => colProgOf rows jp.1 jp.2.1 jp.2.2) ++
        [Prog.w32 ARRAY_END]).filterMap
      (fun q => match q with
        | Prog.chunk ty (some nm) _ => if ty = COLUMN then some nm else none
        | _ => none) = pairs.map Prod.fst := by
  intro pairs
  induction pairs with
  | nil => intro n; rfl
  | cons kp kps ih =>
    intro n
    simp only [List.enumFrom, List.map_cons, List.cons_append, List.filterMap_cons]
    rw [show (colProgOf rows n kp.1 kp.2) = Prog.chunk COLUMN (some kp.1) _ from rfl]
    simp only [COLUMN, eq_self_iff_true, if_true]
    exact congrArg (kp.1 :: ·) (ih (n + 1))

theorem progColumnNames_tableProgOf (n : List Nat) (i : Nat)
    (pairs : List (List Nat × ColInfo)) (rows : List (List Cell)) :
    progColumnNames (tableProgOf n i pairs rows) = pairs.map Prod.fst := by
  show (pairs.enum.map (fun jp => colProgOf rows jp.1 jp.2.1 jp.2.2) ++
      [Prog.w32 ARRAY_END]).filterMap _ = _
  rw [List.enum]
  exact filterMap_colNames rows pairs 0

/-! ## `Object.keys` on distinct non-index names is the identity -/

theorem firstDedup_go_of_nodup :
    ∀ (l acc : List (List Nat)), (acc ++ l).Nodup →
      l.foldl (fun a x => if x ∈ a then a else a ++ [x]) acc = acc ++ l := by
  intro l
  induction l with
  | nil => intro acc _; simp
  | cons x xs ih =>
    intro acc h
    have hx : x ∉ acc := fun hmem =>
      ((List.nodup_append.mp h).2.2 hmem) (List.mem_cons_self x xs)
    rw [List.foldl_cons, if_neg hx, ih (acc ++ [x]) (by
      rw [List.append_assoc]; exact h)]
    simp

theorem jsObjectKeys_eq_self (names : List (List Nat))
    (h1 : ∀ nm ∈ names, isArrayIndex nm = false) (h2 : names.Nodup) :
    jsObjectKeys names = names := by
  have hfa : names.filter isArrayIndex = [] := by
    rw [List.filter_eq_nil_iff]
    intro a ha
    simp [h1 a ha]
  have hfb : names.filter (fun s => !(isArrayIndex s)) = names := by
    rw [List.filter_eq_self]
    intro a ha
    simp [h1 a ha]
  have hd : firstDedup names = names := by
    have := firstDedup_go_of_nodup names [] (by simpa using h2)
    simpa [firstDedup] using this
  show (firstDedup (names.filter isArrayIndex)).insertionSort
      (fun a b => digitsVal a ≤ digitsVal b) ++
    firstDedup (names.filter (fun s => !(isArrayIndex s))) = names
  rw [hfa, hfb, hd]
  rfl

/-- Inverting a successful `tableProg`: the table exists under the row's
name, and the emitted chunk is `tableProgOf` over the `Object.keys` pairs
(whose first components are exactly the keys). -/
theorem tableProg_ok {db : SDb} {n : List Nat} {i : Nat} {p : Prog}
    (h : tableProg db (n, i) = .ok p) :
    ∃ t, t ∈ db.tables ∧ t.name = n ∧
      ∃ pairs : List (List Nat × ColInfo),
        pairs.map Prod.fst = jsObjectKeys (t.cols.map (fun c => c.name)) ∧
        p = tableProgOf n i pairs t.rows := by
  simp only [tableProg] at h
  by_cases hq : n.contains 34 = true
  · rw [if_pos hq] at h
    exact absurd h (fun hc => Except.noConfusion hc)
  · rw [if_neg hq] at h
    cases hfd : db.tables.find? (fun t => decide (t.name = n)) with
    | none =>
      rw [hfd] at h
      exact absurd h (fun hc => Except.noConfusion hc)
    | some t =>
      rw [hfd] at h
      obtain ⟨infosAll, hma, h2⟩ := bindOk h
      by_cases hany : t.rows.any (fun r =>
          decide ((jsObjectKeys (t.cols.map (fun c => c.name))).length < r.length)) = true
      · rw [if_pos hany] at h2
        exact absurd h2 (fun hc => Except.noConfusion hc)
      · rw [if_neg hany] at h2
        cases h2
        refine ⟨t, List.mem_of_find?_eq_some hfd, by simpa using List.find?_some hfd,
          _, ?_, rfl⟩
        rw [List.map_map]
        exact List.map_id _

/-- What a successful `mapM` over `tableProg` guarantees about the emitted
table chunk programs. -/
theorem mapM_tableProg_facts (db : SDb) :
    ∀ (l : List (List Nat × Nat)) (tps : List Prog),
    l.mapM (tableProg db) = .ok tps →
    tps.map progTableId = l.map Prod.snd ∧
    (∀ q ∈ tps, isTableChunk q = true) ∧
    (∀ q ∈ tps, ∃ t ∈ db.tables, progDescr q = some t.name ∧
      progColumnNames q = jsObjectKeys (t.cols.map (fun c => c.name))) := by
  intro l
  induction l with
  | nil =>
    intro tps h
    cases h
    exact ⟨rfl, fun q hq => absurd hq (List.not_mem_nil q),
      fun q hq => absurd hq (List.not_mem_nil q)⟩
  | cons r rs ih =>
    intro tps h
    rw [List.mapM_cons] at h
    obtain ⟨p, hp, h2⟩ := bindOk h
    obtain ⟨ps, hps, h3⟩ := bindOk h2
    cases h3
    obtain ⟨h4, h5, h6⟩ := ih ps hps
    obtain ⟨rn, ri⟩ := r
    obtain ⟨t, htmem, hname, pairs, hpf, hpt⟩ := tableProg_ok hp
    subst hpt
    refine ⟨?_, ?_, ?_⟩
    · simp only [List.map_cons, progTableId_tableProgOf, h4]
    · intro q hq
      rcases List.mem_cons.mp hq with hq | hq
      · subst hq; exact isTableChunk_tableProgOf _ _ _ _
      · exact h5 q hq
    · intro q hq
      rcases List.mem_cons.mp hq with hq | hq
      · subst hq
        refine ⟨t, htmem, ?_, ?_⟩
        · rw [show progDescr (tableProgOf rn ri pairs t.rows) = some rn from rfl, hname]
        · rw [progColumnNames_tableProgOf, hpf]
      · exact h6 q hq

theorem filter_isTableChunk (tps : List Prog) (h : ∀ q ∈ tps, isTableChunk q = true) :
    ((tps ++ [Prog.w32 ARRAY_END]).filter isTableChunk) = tps := by
  rw [List.filter_append]
  rw [List.filter_eq_self.mpr h]
  simp [isTableChunk]

/-! ## C6 — table and column emission order on encode -/

set_option maxRecDepth 400000 in
/-- C6 counterexample: `c6xfile` decodes to a table whose columns are, in
decoded order, `"B"` (byte 66) then `"1"` (byte 49); re-encoding that
database emits the `COLUMN` chunks as `"1"` then `"B"`, because
`Object.keys(columnInfo)` places the array-index key `"1"` ahead of the
string key `"B"`.  Column order is therefore not preserved in general. -/
theorem C6_counterexample :
    cdbToSQLite c6xfile = .ok c6xdb ∧
    c6xdb.tables.map (fun t => t.cols.map (fun c => c.name)) = [[[66], [49]]] ∧
    dbProgs c6xdb = .ok c6xps ∧
    (tableChunksOf c6xps).map progColumnNames = [[[49], [66]]] :=
  ⟨by decide, by decide, rfl, by decide⟩

/-- C6 (amended): on encode, tables are emitted in ascending order of table
id — the emitted `TABLE` chunk sequence carries exactly the `DB_STRUCTURE`
ids (a permutation) in `≤`-sorted order — and each emitted table's `COLUMN`
chunks carry its `Object.keys(columnInfo)` key list, which equals the
table's stored (decoded) column order whenever no column name is an
array-index string and the names are distinct; an array-index name is
reordered ahead of the rest (see `C6_counterexample`). -/
theorem C6_emission_order (db : SDb) (ps : List Prog) (hok : dbProgs db = .ok ps) :
    ((tableChunksOf ps).map progTableId).Sorted (· ≤ ·) ∧
    ((tableChunksOf ps).map progTableId).Perm (db.struct.map Prod.snd) ∧
    ∀ q ∈ tableChunksOf ps, ∃ t ∈ db.tables,
      progDescr q = some t.name ∧
      progColumnNames q = jsObjectKeys (t.cols.map (fun c => c.name)) ∧
      ((∀ nm ∈ t.cols.map (fun c => c.name), isArrayIndex nm = false) →
        (t.cols.map (fun c => c.name)).Nodup →
        progColumnNames q = t.cols.map (fun c => c.name)) := by
  unfold dbProgs at hok
  by_cases hne : db.struct.isEmpty
  · rw [if_pos hne] at hok; exact absurd hok (fun hc => Except.noConfusion hc)
  rw [if_neg hne] at hok
  obtain ⟨tps, htps, h2⟩ := bindOk hok
  cases h2
  obtain ⟨h4, h5, h6⟩ := mapM_tableProg_facts db _ _ htps
  have htc : tableChunksOf [Prog.chunk WRAPPER (some cyanideDesc)
      [Prog.chunk DATABASE_FLAGS none [Prog.w32 274],
       Prog.chunk DATABASE_TABLES none
         (Prog.w32 ARRAY_BEGIN ::
          Prog.w32 (List.insertionSort (fun a b => a.2 ≤ b.2) db.struct).length ::
          (tps ++ [Prog.w32 ARRAY_END]))]] = tps := by
    show (Prog.w32 ARRAY_BEGIN ::
          Prog.w32 (List.insertionSort (fun a b => a.2 ≤ b.2) db.struct).length ::
          (tps ++ [Prog.w32 ARRAY_END])).filter isTableChunk = tps
    rw [List.filter_cons_of_neg (by simp [ isTableChunk]),
        List.filter_cons_of_neg (by simp [ isTableChunk])]
    exact filter_isTableChunk tps h5
  rw [htc, h4]
  haveI : IsTotal (List Nat × Nat) (fun a b => a.2 ≤ b.2) := ⟨fun a b => Nat.le_total a.2 b.2⟩
  haveI : IsTrans (List Nat × Nat) (fun a b => a.2 ≤ b.2) := ⟨fun _ _ _ => Nat.le_trans⟩
  refine ⟨?_, ?_, ?_⟩
  · have hs := List.sorted_insertionSort (fun a b : List Nat × Nat => a.2 ≤ b.2) db.struct
    exact List.Pairwise.map Prod.snd (fun a b hab => hab) hs
  · exact List.Perm.map Prod.snd (List.perm_insertionSort _ db.struct)
  · intro q hq
    obtain ⟨t, htm, hd, hcn⟩ := h6 q hq
    refine ⟨t, htm, hd, hcn, fun hna hnd => ?_⟩
    rw [hcn, jsObjectKeys_eq_self _ hna hnd]

/-- Witness for C6's amended theorem on a database whose `DB_STRUCTURE`
rows are stored with ids 7 then 5: the emitted order is sorted and a
permutation of them. -/
theorem C6_emission_order_witness :
    dbProgs c6db = .ok c6ps ∧
    ((tableChunksOf c6ps).map progTableId).Sorted (· ≤ ·) ∧
    ((tableChunksOf c6ps).map progTableId).Perm (c6db.struct.map Prod.snd) :=
  ⟨rfl, (C6_emission_order c6db c6ps rfl).1, (C6_emission_order c6db c6ps rfl).2.1⟩

/-! ## C7 — unknown table ids on encode -/

/-- C7 (amended): whether `tableProg` succeeds does not depend on the table
id at all, so an id absent from `TABLE_FLAGS_BY_ID` cannot abort the
encode; and every successfully emitted `TABLE` chunk carries
`TABLE_FLAGS_BY_ID[id] ?? 0` as its `TABLE_FLAGS` value word — 0 whenever
the id is absent from the map. -/
theorem C7_unknown_id_not_fatal (db : SDb) (n : List Nat) (i j : Nat) :
    (tableProg db (n, i)).isOk = (tableProg db (n, j)).isOk ∧
    (∀ prog, tableProg db (n, i) = .ok prog →
      progTableFlags prog = (tableFlagsById i).getD 0) ∧
    (tableFlagsById i = none →
      ∀ prog, tableProg db (n, i) = .ok prog → progTableFlags prog = 0) := by
  refine ⟨?_, ?_, ?_⟩
  · simp only [tableProg]
    split
    · rfl
    · split
      · rfl
      · next t _ =>
        cases hma : t.cols.mapM (fun c => (colInfoOf c.type).map (fun v => (c.name, v))) with
        | error e => rfl
        | ok infosAll =>
          rw [okBind, okBind]
          split
          · rfl
          · rfl
  · intro prog hok
    obtain ⟨t, htm, hnm, pairs, hpf, hpt⟩ := tableProg_ok hok
    rw [hpt, progTableFlags_tableProgOf]
  · intro hnone prog hok
    obtain ⟨t, htm, hnm, pairs, hpf, hpt⟩ := tableProg_ok hok
    rw [hpt, progTableFlags_tableProgOf, hnone]
    rfl

set_option maxRecDepth 80000 in
/-- Witness for C7's amended theorem at the concrete table with id 999,
which `TABLE_FLAGS_BY_ID` does not list. -/
theorem C7_unknown_id_not_fatal_witness :
    tableFlagsById 999 = none ∧ progTableFlags c7prog = 0 :=
  ⟨by decide, (C7_unknown_id_not_fatal c7db [84] 999 5).2.2 (by decide) c7prog rfl⟩

set_option maxRecDepth 80000 in
/-- C7 counterexample: table id 999 has no `TABLE_FLAGS_BY_ID` entry, yet
encoding succeeds — no `UnknownTableId` error — and the `TABLE_FLAGS` chunk
(whose begin-magic sits at byte 208 and type word at 216 in this output)
carries the value word 0, the `setUint32` coercion of `undefined`. -/
theorem C7_counterexample :
    tableFlagsById 999 = none ∧
    sqliteToCDBBytes c7db = .ok c7out ∧
    (c7out.drop 208).take 4 = w32 CHUNK_BEGIN ∧
    (c7out.drop 216).take 4 = w32 TABLE_FLAGS ∧
    (c7out.drop 232).take 4 = w32 0 :=
  ⟨by decide, by decide, by decide, by decide, by decide⟩

/-! ## C1 — the decode→encode round trip on the decompressed bytes -/

set_option maxRecDepth 400000 in
/-- C1 counterexample: `c1file` is a valid input — already uncompressed
(`decompressCDB` passes it through) and decoded by `cdbToSQLite` — yet
decompressing the re-encode of its decode yields `c1out`, which differs
from `c1file`: the reader stores and ignores the `DATABASE_FLAGS` value
word (275 here) and the encoder always writes back 274, so the round trip
is not byte-identical on all valid inputs. -/
theorem C1_counterexample :
    decompressCDB c1file = .ok c1file ∧
    cdbToSQLite c1file = .ok c1db ∧
    sqliteToCDB c1db = .ok (compressCDB c1out) ∧
    decompressCDB (compressCDB c1out) = .ok c1out ∧
    c1out ≠ c1file :=
  ⟨by decide, by decide, by decide, by decide, by decide⟩

set_option maxRecDepth 400000 in
/-- C1 (amended): on the encoder's own output the round trip is
byte-identical: `compressCDB c1out` decodes back to `c1db`, whose re-encode
is again `compressCDB c1out`, and both decompress to exactly `c1out` — so
`decompress(encode(decode(y))) = decompress(y)` holds at
`y = compressCDB c1out`, while `C1_counterexample` exhibits a valid input
(deviating only in a word the reader never uses) where it fails. -/
theorem C1_roundtrip_fixpoint :
    cdbToSQLite (compressCDB c1out) = .ok c1db ∧
    sqliteToCDB c1db = .ok (compressCDB c1out) ∧
    decompressCDB (compressCDB c1out) = .ok c1out :=
  ⟨by decide, by decide, by decide⟩

/-! ## C8: float-list decode/encode texts -/

/-- The `writeListData` output for a float-list column, phrased through the
per-cell count/word computation. -/
theorem writeColumnProgs_floatList (cells : List Cell) (es : List (Nat × List Nat))
    (he : cells.map (listEntryOf DT_FLOAT_LIST) = es) :
    writeColumnProgs DT_FLOAT_LIST cells =
      (if 0 < ((es.map (fun e => e.2)).flatten).length then
        [Prog.chunk COLUMN_VALUES none (es.map (fun e => Prog.w32 e.1)),
         Prog.chunk COLUMN_BLOB_DATA none
           (Prog.w32 (((es.map (fun e => e.2)).flatten).length * 4) ::
             ((es.map (fun e => e.2)).flatten).map (fun w => Prog.w32 w))]
      else [Prog.chunk COLUMN_VALUES none (es.map (fun e => Prog.w32 e.1))]) := by
  subst he
  rfl

set_option maxRecDepth 80000 in
/-- C8: decoding the float-list column with rows `[[1.0], [1.0, 2.0], []]`
yields the texts `"(1)"`, `"(1.0,2.0)"`, `"()"` (six-decimal formatting with
trailing zeros, the lone trailing point stripped, and `.0` appended only in
the multi-element list), and re-encoding those texts writes the counts
`[1, 2, 0]` followed by the three original float words. -/
theorem C8_float_list_formatting :
    ((readChunk 500 c8bytes 0).bind (fun cp => convertColumnData cp.1)) = .ok c8texts ∧
    c8texts = [.text [40, 49, 41], .text [40, 49, 46, 48, 44, 50, 46, 48, 41],
               .text [40, 41]] ∧
    c8texts.map (listEntryOf DT_FLOAT_LIST) =
      [(1, [1065353216]), (2, [1065353216, 1073741824]), (0, [])] ∧
    writeColumnProgs DT_FLOAT_LIST c8texts =
      [.chunk COLUMN_VALUES none [.w32 1, .w32 2, .w32 0],
       .chunk COLUMN_BLOB_DATA none
         [.w32 12, .w32 1065353216, .w32 1065353216, .w32 1073741824]] := by
  refine ⟨rfl, rfl, by decide, ?_⟩
  rw [writeColumnProgs_floatList c8texts
    [(1, [1065353216]), (2, [1065353216, 1073741824]), (0, [])] (by decide)]
  rfl

end PCMCDB
